import Mathlib

/-!
# OpenHMD core (`src/openhmd.c`): device registry, pose corrections, projection matrices

A shallow embedding of the functions of `openhmd.c`.

* A C `float` is a rational number and float arithmetic is exact.  A float division by
  zero yields an infinity or a NaN, which no rational number stands for: a function that
  performs one returns `none`.
* A `float*` argument is a buffer `Nat → ℚ` (offset from the pointer ↦ value stored there).
* Pointers to devices and drivers are addresses (`Nat`); a pointer variable that may be
  `NULL` is an `Option Nat`.  Memory is a partial map from addresses to objects.
* A function whose C execution performs an invalid memory access (a store through `NULL`,
  a slot before the start or past the end of the active array, a freed device) returns
  `none`.
* The arrays `ctx->active_devices` and `ctx->list.devices` are maps from slot number to
  content.  Their declared lengths live in a header that is not part of this file: the
  length of `active_devices` is the field `active_devices_len` of the context, and a store
  to a slot at or past it is an invalid access; the length of `list.devices` is not
  modelled, `openhmd.c` only reads that array.
* `ohmd_lock_mutex` / `ohmd_unlock_mutex` do not change the sequential state and are left
  out, except in `ohmd_device_geti`, whose result lists the mutex calls it makes.
-/

namespace OpenHMD

/-! ## Values -/

/-- The floats reachable from a `float*`: offset ↦ value. -/
abbrev fbuf := Nat → ℚ

/-- The content of an uninitialised local buffer (taken to be zero-filled). -/
def fbuf_zero : fbuf := fun _ => 0

/-- The C union `quatf`: fields `x, y, z, w`, aliased by `arr[4]` in that order. -/
structure quatf where
  x : ℚ
  y : ℚ
  z : ℚ
  w : ℚ
deriving DecidableEq

/-- The C union `vec3f`: fields `x, y, z`, aliased by `arr[3]` in that order. -/
structure vec3f where
  x : ℚ
  y : ℚ
  z : ℚ
deriving DecidableEq

/-- The C struct `mat4x4f`: `m[row][col]`. -/
abbrev mat4x4f := Fin 4 → Fin 4 → ℚ

/-- The view `v.arr[i]` of a `vec3f`. -/
def vec3f.arr (v : vec3f) (i : Nat) : ℚ :=
  if i = 0 then v.x else if i = 1 then v.y else v.z

/-- The value read through `*(quatf*)p`. -/
def load_quatf (p : fbuf) : quatf := ⟨p 0, p 1, p 2, p 3⟩

/-- The buffer after `*(quatf*)p = q`. -/
def store_quatf (p : fbuf) (q : quatf) : fbuf :=
  fun i => if i = 0 then q.x else if i = 1 then q.y else if i = 2 then q.z
    else if i = 3 then q.w else p i

/-- The value read through `*(vec3f*)p`. -/
def load_vec3f (p : fbuf) : vec3f := ⟨p 0, p 1, p 2⟩

/-- The buffer after `*(vec3f*)p = v`. -/
def store_vec3f (p : fbuf) (v : vec3f) : fbuf :=
  fun i => if i = 0 then v.x else if i = 1 then v.y else if i = 2 then v.z else p i

/-- The buffer after `*p = x`. -/
def store_float (p : fbuf) (x : ℚ) : fbuf :=
  fun i => if i = 0 then x else p i

/-- The buffer after `*(mat4x4f*)p = m` (row-major `float m[4][4]`). -/
def store_mat4x4f (p : fbuf) (m : mat4x4f) : fbuf :=
  fun i => if h : i < 16 then m ⟨i / 4, by omega⟩ ⟨i % 4, by omega⟩ else p i

/-- The value read through `*(mat4x4f*)p`. -/
def load_mat4x4f (p : fbuf) : mat4x4f :=
  fun i j => p (4 * i.val + j.val)

/-- The identity quaternion `(x, y, z, w) = (0, 0, 0, 1)`. -/
def quatf_identity : quatf := ⟨0, 0, 0, 1⟩

/-! ## The algebra library used by `openhmd.c` (its source, `omath.c`, is not in `src/`) -/

/-- Modelled from the spec: `oquatf_mult_me(me, q)` of the algebra library (absent from
`src/`) sets `me := me * q`, the quaternion (Hamilton) product; the result is the new value
of `me`. -/
def oquatf_mult_me (me q : quatf) : quatf :=
  { x := me.w * q.x + me.x * q.w + me.y * q.z - me.z * q.y
    y := me.w * q.y - me.x * q.z + me.y * q.w + me.z * q.x
    z := me.w * q.z + me.x * q.y - me.y * q.x + me.z * q.w
    w := me.w * q.w - me.x * q.x - me.y * q.y - me.z * q.z }

/-- Modelled from the spec: the quaternion inverse `a^-1` used by `oquatf_diff` (absent from
`src/`): the conjugate divided by the squared norm. -/
def oquatf_inverse (a : quatf) : quatf :=
  let dot := a.x * a.x + a.y * a.y + a.z * a.z + a.w * a.w
  { x := -a.x / dot, y := -a.y / dot, z := -a.z / dot, w := a.w / dot }

/-- Modelled from the spec: `oquatf_diff(me, q, out)` of the algebra library (absent from
`src/`) stores the quaternion difference `me^-1 * q` in `out`. -/
def oquatf_diff (me q : quatf) : quatf :=
  oquatf_mult_me (oquatf_inverse me) q

/-- Modelled from the spec: `omat4x4f_init_translate(me, x, y, z)` of the algebra library
(absent from `src/`) builds the translation matrix: the identity with `(x, y, z)` in the
last column. -/
def omat4x4f_init_translate (x y z : ℚ) : mat4x4f :=
  fun i j =>
    if j = 3 then (if i = 0 then x else if i = 1 then y else if i = 2 then z else 1)
    else if i = j then 1 else 0

/-- Modelled from the spec: `omat4x4f_mult(left, right, out)` of the algebra library (absent
from `src/`) stores the 4×4 matrix product `left * right` in `out`. -/
def omat4x4f_mult (l r : mat4x4f) : mat4x4f :=
  fun i j => l i 0 * r 0 j + l i 1 * r 1 j + l i 2 * r 2 j + l i 3 * r 3 j

/-- Modelled from the spec: `omat4x4f_transpose(me, out)` of the algebra library (absent from
`src/`) stores the transpose of `me` in `out`. -/
def omat4x4f_transpose (m : mat4x4f) : mat4x4f :=
  fun i j => m j i

/-- The two constructors of the algebra library whose formulas neither this file nor the spec
gives; every definition that calls them takes them as a parameter. -/
structure omath where
  /-- The matrix built by `omat4x4f_init_look_at(me, rot, eye)`. -/
  omat4x4f_init_look_at : quatf → vec3f → mat4x4f
  /-- The matrix built by `omat4x4f_init_perspective(me, fov, aspect, znear, zfar)`. -/
  omat4x4f_init_perspective : ℚ → ℚ → ℚ → ℚ → mat4x4f

/-! ## Devices -/

/-- The values of the C enum `ohmd_float_value` that `openhmd.c` names, and every other
integer a caller may pass. -/
inductive ohmd_float_value where
  | OHMD_ROTATION_QUAT
  | OHMD_LEFT_EYE_GL_MODELVIEW_MATRIX
  | OHMD_RIGHT_EYE_GL_MODELVIEW_MATRIX
  | OHMD_LEFT_EYE_GL_PROJECTION_MATRIX
  | OHMD_RIGHT_EYE_GL_PROJECTION_MATRIX
  | OHMD_POSITION_VECTOR
  | OHMD_SCREEN_HORIZONTAL_SIZE
  | OHMD_SCREEN_VERTICAL_SIZE
  | OHMD_LENS_HORIZONTAL_SEPARATION
  | OHMD_LENS_VERTICAL_POSITION
  | OHMD_LEFT_EYE_FOV
  | OHMD_LEFT_EYE_ASPECT_RATIO
  | OHMD_RIGHT_EYE_FOV
  | OHMD_RIGHT_EYE_ASPECT_RATIO
  | OHMD_EYE_IPD
  | OHMD_PROJECTION_ZFAR
  | OHMD_PROJECTION_ZNEAR
  | unrecognised (code : Int)
deriving DecidableEq

/-- The C struct `ohmd_device_properties`. -/
structure ohmd_device_properties where
  hres : Int
  vres : Int
  hsize : ℚ
  vsize : ℚ
  lens_sep : ℚ
  lens_vpos : ℚ
  fov : ℚ
  ratio : ℚ
  ipd : ℚ
  zfar : ℚ
  znear : ℚ
  proj_left : mat4x4f
  proj_right : mat4x4f

/-- The C struct `ohmd_device`, as far as `openhmd.c` uses it.  `getf` is the driver's
getter `device->getf(device, type, out)`: from the type and the buffer behind `out` to the
return code and the buffer afterwards. -/
structure ohmd_device where
  properties : ohmd_device_properties
  rotation_correction : quatf
  position_correction : vec3f
  active_device_idx : Int
  ctx : Option Nat
  getf : ohmd_float_value → fbuf → Int × fbuf

open ohmd_float_value in
/-- `ohmd_device_getf(device, type, out)`: the return code and the buffer behind `out`. -/
def ohmd_device_getf (lib : omath) (device : ohmd_device) (type : ohmd_float_value)
    (out : fbuf) : Int × fbuf :=
  match type with
  | OHMD_LEFT_EYE_GL_MODELVIEW_MATRIX =>
    let point : vec3f := ⟨0, 0, 0⟩
    let rot : quatf := load_quatf (device.getf OHMD_ROTATION_QUAT fbuf_zero).2
    let tmp : quatf := device.rotation_correction
    let tmp := oquatf_mult_me tmp rot
    let rot := tmp
    let orient := lib.omat4x4f_init_look_at rot point
    let world_shift := omat4x4f_init_translate (device.properties.ipd / 2) 0 0
    let result := omat4x4f_mult world_shift orient
    (0, store_mat4x4f out (omat4x4f_transpose result))
  | OHMD_RIGHT_EYE_GL_MODELVIEW_MATRIX =>
    let point : vec3f := ⟨0, 0, 0⟩
    let rot : quatf := load_quatf (device.getf OHMD_ROTATION_QUAT fbuf_zero).2
    let rot := oquatf_mult_me rot device.rotation_correction
    let orient := lib.omat4x4f_init_look_at rot point
    let world_shift := omat4x4f_init_translate (-(device.properties.ipd / 2)) 0 0
    let result := omat4x4f_mult world_shift orient
    (0, store_mat4x4f out (omat4x4f_transpose result))
  | OHMD_LEFT_EYE_GL_PROJECTION_MATRIX =>
    (0, store_mat4x4f out (omat4x4f_transpose device.properties.proj_left))
  | OHMD_RIGHT_EYE_GL_PROJECTION_MATRIX =>
    (0, store_mat4x4f out (omat4x4f_transpose device.properties.proj_right))
  | OHMD_SCREEN_HORIZONTAL_SIZE => (0, store_float out device.properties.hsize)
  | OHMD_SCREEN_VERTICAL_SIZE => (0, store_float out device.properties.vsize)
  | OHMD_LENS_HORIZONTAL_SEPARATION => (0, store_float out device.properties.lens_sep)
  | OHMD_LENS_VERTICAL_POSITION => (0, store_float out device.properties.lens_vpos)
  | OHMD_RIGHT_EYE_FOV => (0, store_float out device.properties.fov)
  | OHMD_LEFT_EYE_FOV => (0, store_float out device.properties.fov)
  | OHMD_RIGHT_EYE_ASPECT_RATIO => (0, store_float out device.properties.ratio)
  | OHMD_LEFT_EYE_ASPECT_RATIO => (0, store_float out device.properties.ratio)
  | OHMD_EYE_IPD => (0, store_float out device.properties.ipd)
  | OHMD_PROJECTION_ZFAR => (0, store_float out device.properties.zfar)
  | OHMD_PROJECTION_ZNEAR => (0, store_float out device.properties.znear)
  | OHMD_ROTATION_QUAT =>
    let r := device.getf OHMD_ROTATION_QUAT out
    let ret := r.1
    let out := r.2
    if ret ≠ 0 then (ret, out)
    else
      -- oquatf_mult_me((quatf*)out, &device->rotation_correction);
      let out := store_quatf out (oquatf_mult_me (load_quatf out) device.rotation_correction)
      -- quatf tmp = device->rotation_correction;
      let tmp := device.rotation_correction
      -- oquatf_mult_me(&tmp, (quatf*)out);
      let tmp := oquatf_mult_me tmp (load_quatf out)
      -- *(quatf*)out = tmp;
      (0, store_quatf out tmp)
  | OHMD_POSITION_VECTOR =>
    let r := device.getf OHMD_POSITION_VECTOR out
    let ret := r.1
    let out := r.2
    if ret ≠ 0 then (ret, out)
    else
      (0, fun i => if i < 3 then out i + device.position_correction.arr i else out i)
  | unrecognised code => device.getf (unrecognised code) out

open ohmd_float_value in
/-- `ohmd_device_setf(device, type, in)`: the return code and the device afterwards. -/
def ohmd_device_setf (device : ohmd_device) (type : ohmd_float_value) (inp : fbuf) :
    Int × ohmd_device :=
  match type with
  | OHMD_EYE_IPD =>
    (0, { device with properties := { device.properties with ipd := inp 0 } })
  | OHMD_PROJECTION_ZFAR =>
    (0, { device with properties := { device.properties with zfar := inp 0 } })
  | OHMD_PROJECTION_ZNEAR =>
    (0, { device with properties := { device.properties with znear := inp 0 } })
  | OHMD_ROTATION_QUAT =>
    -- quatf q; int ret = device->getf(device, OHMD_ROTATION_QUAT, (float*)&q);
    let r := device.getf OHMD_ROTATION_QUAT fbuf_zero
    let ret := r.1
    let q : quatf := load_quatf r.2
    if ret ≠ 0 then (ret, device)
    else
      (0, { device with rotation_correction := oquatf_diff q (load_quatf inp) })
  | OHMD_POSITION_VECTOR =>
    -- vec3f v; int ret = device->getf(device, OHMD_POSITION_VECTOR, (float*)&v);
    let r := device.getf OHMD_POSITION_VECTOR fbuf_zero
    let ret := r.1
    let v : vec3f := load_vec3f r.2
    if ret ≠ 0 then (ret, device)
    else
      (0, { device with
              position_correction :=
                ⟨inp 0 - v.arr 0, inp 1 - v.arr 1, inp 2 - v.arr 2⟩ })
  | _ => (-1, device)

/-- `ohmd_calc_default_proj_matrices(props)`: the properties afterwards.  The quotient
`4.0f * lens_shift / props->hsize` is a float division with no test on `hsize`: with
`hsize = 0` it is an infinity or a NaN and there is no result (`none`). -/
def ohmd_calc_default_proj_matrices (lib : omath) (props : ohmd_device_properties) :
    Option ohmd_device_properties :=
  let screen_center := props.hsize / 4
  let lens_shift := screen_center - props.lens_sep / 2
  -- float proj_offset = 4.0f * lens_shift / props->hsize;
  if props.hsize = 0 then none
  else
    let proj_offset := 4 * lens_shift / props.hsize
    let proj_base :=
      lib.omat4x4f_init_perspective props.fov props.ratio props.znear props.zfar
    let translate := omat4x4f_init_translate proj_offset 0 0
    let props := { props with proj_left := omat4x4f_mult translate proj_base }
    let translate := omat4x4f_init_translate (-proj_offset) 0 0
    some { props with proj_right := omat4x4f_mult translate proj_base }

/-! ## The registry -/

/-- The C struct `ohmd_device_desc`.  A string field is the characters before its NUL;
`driver_ptr` is the address of the owning driver. -/
structure ohmd_device_desc where
  vendor : List Char
  product : List Char
  path : List Char
  driver_ptr : Option Nat

/-- The C struct `ohmd_device_list`: the count and the slots of `devices[]`. -/
structure ohmd_device_list where
  num_devices : Int
  devices : Nat → ohmd_device_desc

/-- The device objects in memory: address ↦ object (`none`: no live device there). -/
abbrev device_memory := Nat → Option ohmd_device

/-- The C struct `ohmd_driver`, as far as `openhmd.c` uses it.  `get_device_list` is
`driver->get_device_list(driver, list)`: the list afterwards.  `open_device` is
`driver->open_device(driver, desc)`, run against the device memory: `none` for `NULL`,
otherwise the address it returns and the object it has built there. -/
structure ohmd_driver where
  get_device_list : ohmd_device_list → ohmd_device_list
  open_device : ohmd_device_desc → device_memory → Option (Nat × ohmd_device)

/-- The C struct `ohmd_context` (without its mutex).  `active_devices_len` is the declared
length of the array `active_devices`, a constant of the absent header; a C array has at
least one element. -/
structure ohmd_context where
  drivers : Nat → Option Nat
  num_drivers : Int
  list : ohmd_device_list
  active_devices : Nat → Option Nat
  active_devices_len : Nat
  active_devices_len_pos : 0 < active_devices_len := by decide
  num_active_devices : Int

/-- The values of the C enum `ohmd_string_value` that `openhmd.c` names, and every other
integer a caller may pass. -/
inductive ohmd_string_value where
  | OHMD_VENDOR
  | OHMD_PRODUCT
  | OHMD_PATH
  | unrecognised (code : Int)
deriving DecidableEq

/-- The memory `openhmd.c` works on: one context (at address `ctx_addr`), the driver and
device objects, and the two thread-local buffers. -/
structure world where
  ctx_addr : Nat
  ctx : ohmd_context
  drivers : Nat → Option ohmd_driver
  devices : device_memory
  thread_str : List Char
  ohmd_error_msg : String

/-- The buffer after `strncpy(dst, src, n)`, read as a string. -/
def strncpy (src : List Char) (n : Nat) : List Char := src.take n

/-- The array after `memmove(arr + dst, arr + src, sizeof(ohmd_device*) * n)`; `none` when an
address lies before the array or the count is negative. -/
def memmove_slots (arr : Nat → Option Nat) (dst src n : Int) : Option (Nat → Option Nat) :=
  if dst < 0 ∨ src < 0 ∨ n < 0 then none
  else some (fun j =>
    if dst.toNat ≤ j ∧ j < dst.toNat + n.toNat then arr (src.toNat + (j - dst.toNat)) else arr j)

/-- The device memory after `n` rounds of the loop body
`ctx->active_devices[i]->active_device_idx--; i++` of `ohmd_close_device`. -/
def reindex_loop (active_devices : Nat → Option Nat) :
    Nat → Nat → device_memory → Option device_memory
  | 0, _, devices => some devices
  | n + 1, i, devices =>
    match active_devices i with
    | none => none
    | some p =>
      match devices p with
      | none => none
      | some obj =>
        reindex_loop active_devices n (i + 1)
          (Function.update devices p
            (some { obj with active_device_idx := obj.active_device_idx - 1 }))

open ohmd_string_value in
/-- `ohmd_list_gets(ctx, index, type)`: `some thread_str` or `none` for `NULL`, and the
memory afterwards.  `OHMD_STR_SIZE` is a constant of the absent header. -/
def ohmd_list_gets (OHMD_STR_SIZE : Nat) (w : world) (index : Int) (type : ohmd_string_value) :
    Option (Option (List Char) × world) :=
  if index ≥ w.ctx.list.num_devices then some (none, w)
  else
    match type with
    | OHMD_VENDOR =>
      if index < 0 then none
      else
        let thread_str := strncpy (w.ctx.list.devices index.toNat).vendor OHMD_STR_SIZE
        some (some thread_str, { w with thread_str := thread_str })
    | OHMD_PRODUCT =>
      if index < 0 then none
      else
        let thread_str := strncpy (w.ctx.list.devices index.toNat).product OHMD_STR_SIZE
        some (some thread_str, { w with thread_str := thread_str })
    | OHMD_PATH =>
      if index < 0 then none
      else
        let thread_str := strncpy (w.ctx.list.devices index.toNat).path OHMD_STR_SIZE
        some (some thread_str, { w with thread_str := thread_str })
    | unrecognised _ => some (none, w)

/-- `ohmd_list_open_device(ctx, index)`: the returned pointer (`none` for `NULL`) and the
memory afterwards. -/
def ohmd_list_open_device (w : world) (index : Int) : Option (Option Nat × world) :=
  if index ≥ 0 ∧ index < w.ctx.list.num_devices then
    let desc := w.ctx.list.devices index.toNat
    match desc.driver_ptr.bind w.drivers with
    | none => none
    | some driver =>
      match driver.open_device desc w.devices with
      | none =>
        -- device->rotation_correction.w = 1; with device == NULL
        none
      | some (device, obj) =>
        -- device->rotation_correction.w = 1;
        let obj := { obj with rotation_correction := { obj.rotation_correction with w := 1 } }
        -- if (device == NULL) is not taken
        let obj := { obj with ctx := some w.ctx_addr }
        let obj := { obj with active_device_idx := w.ctx.num_active_devices }
        -- ctx->active_devices[ctx->num_active_devices++] = device;
        if w.ctx.num_active_devices < 0 ∨
            w.ctx.num_active_devices ≥ w.ctx.active_devices_len then none
        else
          some (some device,
            { w with
              devices := Function.update w.devices device (some obj)
              ctx := { w.ctx with
                active_devices :=
                  Function.update w.ctx.active_devices w.ctx.num_active_devices.toNat
                    (some device)
                num_active_devices := w.ctx.num_active_devices + 1 } })
  else
    some (none, { w with ohmd_error_msg := "no device with index: " ++ toString index })

/-- `ohmd_close_device(device)`: the return code and the memory afterwards.  The driver's
`device->close(device)` releases the device object. -/
def ohmd_close_device (w : world) (device : Nat) : Option (Int × world) :=
  match w.devices device with
  | none => none
  | some obj =>
    -- ohmd_context* ctx = device->ctx;  (the context is the only object a `ctx` can point to)
    if obj.ctx ≠ some w.ctx_addr then none
    else
      let idx := obj.active_device_idx
      match memmove_slots w.ctx.active_devices idx (idx + 1)
          (w.ctx.num_active_devices - idx - 1) with
      | none => none
      | some active_devices =>
        -- device->close(device);
        let devices := Function.update w.devices device none
        -- ctx->num_active_devices--;
        let num_active_devices := w.ctx.num_active_devices - 1
        -- for(int i = idx; i < ctx->num_active_devices; i++)
        match reindex_loop active_devices (num_active_devices - idx).toNat idx.toNat
            devices with
        | none => none
        | some devices =>
          some (0,
            { w with
              devices := devices
              ctx := { w.ctx with
                active_devices := active_devices
                num_active_devices := num_active_devices } })

/-- A zero-filled `ohmd_device_desc`: empty strings and a `NULL` driver pointer. -/
def ohmd_device_desc_zero : ohmd_device_desc := ⟨[], [], [], none⟩

/-- The list after `memset(&ctx->list, 0, sizeof(ohmd_device_list))`. -/
def ohmd_device_list_zero : ohmd_device_list :=
  { num_devices := 0, devices := fun _ => ohmd_device_desc_zero }

/-- The device list after `n` rounds of the loop body
`ctx->drivers[i]->get_device_list(ctx->drivers[i], &ctx->list); i++` of `ohmd_ctx_probe`. -/
def probe_loop (w : world) : Nat → Nat → ohmd_device_list → Option ohmd_device_list
  | 0, _, list => some list
  | n + 1, i, list =>
    match (w.ctx.drivers i).bind w.drivers with
    | none => none
    | some driver => probe_loop w n (i + 1) (driver.get_device_list list)

/-- `ohmd_ctx_probe(ctx)`: the return value and the memory afterwards. -/
def ohmd_ctx_probe (w : world) : Option (Int × world) :=
  -- memset(&ctx->list, 0, sizeof(ohmd_device_list));
  let list := ohmd_device_list_zero
  -- for(int i = 0; i < ctx->num_drivers; i++)
  match probe_loop w w.ctx.num_drivers.toNat 0 list with
  | none => none
  | some list =>
    let num_devices := list.num_devices
    some (num_devices, { w with ctx := { w.ctx with list := list } })

/-- The values of the C enum `ohmd_int_value` that `openhmd.c` names, and every other
integer a caller may pass. -/
inductive ohmd_int_value where
  | OHMD_SCREEN_HORIZONTAL_RESOLUTION
  | OHMD_SCREEN_VERTICAL_RESOLUTION
  | unrecognised (code : Int)
deriving DecidableEq

/-- A call of `ohmd_lock_mutex` or `ohmd_unlock_mutex`, with the address of the context
whose mutex it is given. -/
inductive mutex_event where
  | lock (ctx : Nat)
  | unlock (ctx : Nat)
deriving DecidableEq

/-- What a call of `ohmd_device_geti` leaves behind: the return code, the integer behind
`out`, the mutex calls it has made, in order, and the memory. -/
structure geti_result where
  ret : Int
  out : Int
  mutex_calls : List mutex_event
  w : world

open ohmd_int_value in
/-- `ohmd_device_geti(device, type, out)`, where `out` is the integer behind the pointer
before the call. -/
def ohmd_device_geti (w : world) (device : Nat) (type : ohmd_int_value) (out : Int) :
    Option geti_result :=
  match w.devices device with
  | none => none
  | some obj =>
    -- device->ctx->mutex  (the context is the only object a `ctx` can point to)
    match obj.ctx with
    | none => none
    | some ctx =>
      if ctx ≠ w.ctx_addr then none
      else
        -- ohmd_lock_mutex(device->ctx->mutex);
        let mutex_calls := [mutex_event.lock ctx]
        match type with
        | OHMD_SCREEN_HORIZONTAL_RESOLUTION =>
          let out := obj.properties.hres
          -- break; ohmd_unlock_mutex(device->ctx->mutex); return 0;
          let mutex_calls := mutex_calls ++ [mutex_event.unlock ctx]
          some { ret := 0, out := out, mutex_calls := mutex_calls, w := w }
        | OHMD_SCREEN_VERTICAL_RESOLUTION =>
          let out := obj.properties.vres
          let mutex_calls := mutex_calls ++ [mutex_event.unlock ctx]
          some { ret := 0, out := out, mutex_calls := mutex_calls, w := w }
        | unrecognised code =>
          -- ohmd_unlock_mutex(device->ctx->mutex);
          let mutex_calls := mutex_calls ++ [mutex_event.unlock ctx]
          -- ohmd_set_error("no such integer value type: %d", type);
          let w := { w with ohmd_error_msg := "no such integer value type: " ++ toString code }
          some { ret := -1, out := out, mutex_calls := mutex_calls, w := w }

/-! ## Properties of the registry state -/

/-- The active sequence: the slots `0 .. num_active_devices - 1` of `ctx->active_devices`. -/
def active_sequence (w : world) : List (Option Nat) :=
  (List.range w.ctx.num_active_devices.toNat).map w.ctx.active_devices

/-- Device `p` is open: it is the entry at position `k` of the active sequence. -/
def open_at (w : world) (k : Nat) (p : Nat) : Prop :=
  (k : Int) < w.ctx.num_active_devices ∧ w.ctx.active_devices k = some p

/-- The index invariant: every position of the active sequence holds a live device of this
context whose `active_device_idx` is that position. -/
def index_invariant (w : world) : Prop :=
  0 ≤ w.ctx.num_active_devices ∧
  ∀ k : Nat, (k : Int) < w.ctx.num_active_devices →
    ∃ p obj, w.ctx.active_devices k = some p ∧ w.devices p = some obj ∧
      obj.active_device_idx = k ∧ obj.ctx = some w.ctx_addr

/-- A call of the registry made by the application. -/
inductive registry_op where
  | open_device (index : Int)
  | close_device (device : Nat)

/-- One call: the memory afterwards. -/
def registry_step (w : world) : registry_op → Option world
  | .open_device index => (ohmd_list_open_device w index).map Prod.snd
  | .close_device device => (ohmd_close_device w device).map Prod.snd

/-- A sequence of calls, one after the other. -/
def registry_run (w : world) : List registry_op → Option world
  | [] => some w
  | op :: ops => (registry_step w op).bind (fun w1 => registry_run w1 ops)

/-- The calls the invariant is proved for: an open with any index, where for an index in
range the active array has a free slot and the owning driver's `open_device` succeeds with
a newly created device object; and a close of a device that is currently open. -/
def op_admissible (w : world) : registry_op → Prop
  | .open_device index =>
    index ≥ 0 ∧ index < w.ctx.list.num_devices →
      w.ctx.num_active_devices < w.ctx.active_devices_len ∧
      ∃ driver p obj,
        (w.ctx.list.devices index.toNat).driver_ptr.bind w.drivers = some driver ∧
        driver.open_device (w.ctx.list.devices index.toNat) w.devices = some (p, obj) ∧
        w.devices p = none
  | .close_device device => ∃ k, open_at w k device

/-- Every call of the sequence is admissible in the state it is made in. -/
def ops_admissible : world → List registry_op → Prop
  | _, [] => True
  | w, op :: ops =>
    op_admissible w op ∧ ∀ w1, registry_step w op = some w1 → ops_admissible w1 ops

/-- The snapshot: the descriptors in the slots `0 .. num_devices - 1` of the device list. -/
def snapshot (list : ohmd_device_list) : List ohmd_device_desc :=
  (List.range list.num_devices.toNat).map list.devices

/-- The device list after the descriptors `ds` have been appended to it, one
`list->devices[list->num_devices++] = d` each. -/
def list_append (list : ohmd_device_list) : List ohmd_device_desc → ohmd_device_list
  | [] => list
  | d :: ds =>
    list_append
      { num_devices := list.num_devices + 1
        devices := Function.update list.devices list.num_devices.toNat d } ds

/-- The driver appends: whatever list it is given, it appends the devices it finds, which
are the ones it puts into an empty list. -/
def driver_appends (driver : ohmd_driver) : Prop :=
  ∀ list : ohmd_device_list,
    driver.get_device_list list
      = list_append list (snapshot (driver.get_device_list ohmd_device_list_zero))

/-- What driver number `k` of the context appends to an initially empty list. -/
def driver_contribution (w : world) (k : Nat) : List ohmd_device_desc :=
  match (w.ctx.drivers k).bind w.drivers with
  | some driver => snapshot (driver.get_device_list ohmd_device_list_zero)
  | none => []

/-- The cached projection matrices are the ones `ohmd_calc_default_proj_matrices` derives
from the properties. -/
def proj_cache_coherent (lib : omath) (props : ohmd_device_properties) : Prop :=
  ∃ derived, ohmd_calc_default_proj_matrices lib props = some derived ∧
    props.proj_left = derived.proj_left ∧ props.proj_right = derived.proj_right

/-- Whether `p` is open at position `k` can be computed. -/
instance open_at_decidable (w : world) (k p : Nat) : Decidable (open_at w k p) := by
  unfold open_at
  exact inferInstance

/-- The index invariant can be computed: check each position below the active count. -/
instance index_invariant_decidable (w : world) : Decidable (index_invariant w) :=
  decidable_of_iff
    (0 ≤ w.ctx.num_active_devices ∧
      ∀ k : Nat, k < w.ctx.num_active_devices.toNat →
        ((w.ctx.active_devices k).bind w.devices).map
          (fun obj => (obj.active_device_idx, obj.ctx)) = some ((k : Int), some w.ctx_addr))
    (by
      unfold index_invariant
      constructor
      · rintro ⟨h0, h⟩
        refine ⟨h0, fun k hk => ?_⟩
        have hk1 := h k (by omega)
        cases ha : w.ctx.active_devices k with
        | none => simp [ha] at hk1
        | some p =>
          cases hd : w.devices p with
          | none => simp [ha, hd] at hk1
          | some obj =>
            simp [ha, hd] at hk1
            exact ⟨p, obj, rfl, hd, hk1.1, hk1.2⟩
      · rintro ⟨h0, h⟩
        refine ⟨h0, fun k hk => ?_⟩
        obtain ⟨p, obj, ha, hd, hi, hc⟩ := h k (by omega)
        simp [ha, hd, hi, hc])

/-- Admissibility of a call can be computed: run the driver for an open, search the
active sequence for a close. -/
instance op_admissible_decidable (w : world) (op : registry_op) :
    Decidable (op_admissible w op) :=
  match op with
  | .open_device index =>
    decidable_of_iff
      (index ≥ 0 ∧ index < w.ctx.list.num_devices →
        w.ctx.num_active_devices < w.ctx.active_devices_len ∧
        (((w.ctx.list.devices index.toNat).driver_ptr.bind w.drivers).bind
          (fun driver => driver.open_device (w.ctx.list.devices index.toNat) w.devices)).map
            (fun r => (w.devices r.1).isNone) = some true)
      (by
        unfold op_admissible
        constructor
        · intro h hr
          obtain ⟨hcap, h1⟩ := h hr
          refine ⟨hcap, ?_⟩
          cases hdrv : (w.ctx.list.devices index.toNat).driver_ptr.bind w.drivers with
          | none => simp [hdrv] at h1
          | some driver =>
            cases ho : driver.open_device (w.ctx.list.devices index.toNat) w.devices with
            | none => simp [hdrv, ho] at h1
            | some r =>
              simp [hdrv, ho] at h1
              exact ⟨driver, r.1, r.2, rfl, ho, h1⟩
        · intro h hr
          obtain ⟨hcap, driver, p, obj, hdrv, ho, hf⟩ := h hr
          refine ⟨hcap, ?_⟩
          simp [hdrv, ho, hf])
  | .close_device device =>
    decidable_of_iff
      (∃ k : Nat, k < w.ctx.num_active_devices.toNat ∧ w.ctx.active_devices k = some device)
      (by
        unfold op_admissible open_at
        constructor
        · rintro ⟨k, hk, h⟩
          exact ⟨k, by omega, h⟩
        · rintro ⟨k, hk, h⟩
          exact ⟨k, by omega, h⟩)

/-- Admissibility of a sequence of calls can be computed by running it. -/
instance ops_admissible_decidable :
    ∀ (w : world) (ops : List registry_op), Decidable (ops_admissible w ops)
  | _, [] => isTrue trivial
  | w, op :: ops =>
    match h : registry_step w op with
    | none => decidable_of_iff (op_admissible w op) (by simp [ops_admissible, h])
    | some w1 =>
      have := ops_admissible_decidable w1 ops
      decidable_of_iff (op_admissible w op ∧ ops_admissible w1 ops)
        (by simp [ops_admissible, h])

/-! ## Example objects -/

/-- A driver-side getter that reports the fixed orientation `r` and the fixed position `v`,
and fails with `-1` for every other type. -/
def fixed_pose_getf (r : quatf) (v : vec3f) : ohmd_float_value → fbuf → Int × fbuf
  | .OHMD_ROTATION_QUAT, out => (0, store_quatf out r)
  | .OHMD_POSITION_VECTOR, out => (0, store_vec3f out v)
  | _, out => (-1, out)

/-- Some device properties. -/
def example_properties : ohmd_device_properties :=
  { hres := 1280, vres := 800, hsize := 3 / 20, vsize := 1 / 10, lens_sep := 1 / 16,
    lens_vpos := 1 / 20, fov := 2, ratio := 4 / 5, ipd := 1 / 16, zfar := 1000,
    znear := 1 / 10, proj_left := fun _ _ => 0, proj_right := fun _ _ => 0 }

/-- A device as a driver leaves it: rotation correction `c`, no position correction, no
registry fields set, and a getter with fixed raw orientation `r` and raw position `v`. -/
def example_device (c r : quatf) (v : vec3f) : ohmd_device :=
  { properties := example_properties, rotation_correction := c,
    position_correction := ⟨0, 0, 0⟩, active_device_idx := 0, ctx := none,
    getf := fixed_pose_getf r v }

/-- An instance of the two absent matrix constructors: a zero look-at matrix, and a
perspective-like matrix whose bottom row is not zero, so that a horizontal offset shows in
the product. -/
def example_omath : omath :=
  { omat4x4f_init_look_at := fun _ _ _ _ => 0
    omat4x4f_init_perspective := fun fov ratio znear zfar i j =>
      if i = 3 then (if j = 2 then -1 else 0)
      else if i = j then (if i = 0 then fov / ratio else if i = 1 then fov else znear - zfar)
      else 0 }

/-- The descriptor the example driver at address 10 enumerates. -/
def example_desc : ohmd_device_desc :=
  { vendor := "OpenHMD".toList, product := "Dummy Device".toList, path := "(none)".toList,
    driver_ptr := some 10 }

/-- A driver that enumerates one device and whose `open_device` builds `obj` at the first
of the addresses 100, 101 that holds no live device (`NULL` when both do). -/
def example_driver (obj : ohmd_device) : ohmd_driver :=
  { get_device_list := fun list =>
      { num_devices := list.num_devices + 1
        devices := Function.update list.devices list.num_devices.toNat example_desc }
    open_device := fun _ mem =>
      if (mem 100).isNone then some (100, obj)
      else if (mem 101).isNone then some (101, obj)
      else none }

/-- A driver that enumerates one device and whose `open_device` returns `NULL`. -/
def failing_driver : ohmd_driver :=
  { get_device_list := fun list =>
      { num_devices := list.num_devices + 1
        devices := Function.update list.devices list.num_devices.toNat example_desc }
    open_device := fun _ _ => none }

/-- A context at address 1 with the single driver `driver` at address 10, a probed list of
one device, and no open device. -/
def example_world (driver : ohmd_driver) : world :=
  { ctx_addr := 1
    ctx :=
      { drivers := fun i => if i = 0 then some 10 else none
        num_drivers := 1
        list :=
          { num_devices := 1
            devices := fun i => if i = 0 then example_desc else ⟨[], [], [], none⟩ }
        active_devices := fun _ => none
        active_devices_len := 256
        num_active_devices := 0 }
    drivers := fun a => if a = 10 then some driver else none
    devices := fun _ => none
    thread_str := []
    ohmd_error_msg := "" }

/-- The device object the example driver builds: zero-filled corrections (as from `calloc`)
and a getter with raw orientation `(0,0,0,1)` and raw position `(0,0,0)`. -/
def example_new_device : ohmd_device :=
  example_device ⟨0, 0, 0, 0⟩ quatf_identity ⟨0, 0, 0⟩

/-- The example context with two open devices: address 100 at position 0 and address 101
at position 1. -/
def example_world_two_open : world :=
  { ctx_addr := 1
    ctx :=
      { drivers := fun i => if i = 0 then some 10 else none
        num_drivers := 1
        list :=
          { num_devices := 1
            devices := fun i => if i = 0 then example_desc else ⟨[], [], [], none⟩ }
        active_devices := fun i => if i = 0 then some 100 else if i = 1 then some 101 else none
        active_devices_len := 256
        num_active_devices := 2 }
    drivers := fun a => if a = 10 then some (example_driver example_new_device) else none
    devices := fun a =>
      if a = 100 then
        some { example_new_device with
                rotation_correction := quatf_identity, active_device_idx := 0, ctx := some 1 }
      else if a = 101 then
        some { example_new_device with
                rotation_correction := quatf_identity, active_device_idx := 1, ctx := some 1 }
      else none
    thread_str := []
    ohmd_error_msg := "" }

/-- Four calls: open index 0, open the invalid index 7, open index 0 again, close the first
device. -/
def example_ops : List registry_op :=
  [.open_device 0, .open_device 7, .open_device 0, .close_device 100]

/-- A driver-side getter that fails with `code` for every type and leaves the buffer
alone. -/
def failing_getf (code : Int) : ohmd_float_value → fbuf → Int × fbuf :=
  fun _ out => (code, out)

/-- A device whose getter fails with `-1`, with rotation correction `(3/5, 0, 0, 4/5)` and
position correction `(1, 2, 3)`. -/
def failing_device : ohmd_device :=
  { properties := example_properties, rotation_correction := ⟨3 / 5, 0, 0, 4 / 5⟩,
    position_correction := ⟨1, 2, 3⟩, active_device_idx := 0, ctx := none,
    getf := failing_getf (-1) }

/-- An instance of the absent look-at constructor: the rotation matrix of the quaternion,
with the eye position subtracted in the last column. -/
def example_look_at (q : quatf) (eye : vec3f) : mat4x4f := fun i j =>
  match i.val, j.val with
  | 0, 0 => 1 - 2 * (q.y * q.y + q.z * q.z)
  | 0, 1 => 2 * (q.x * q.y - q.z * q.w)
  | 0, 2 => 2 * (q.x * q.z + q.y * q.w)
  | 0, 3 => -eye.x
  | 1, 0 => 2 * (q.x * q.y + q.z * q.w)
  | 1, 1 => 1 - 2 * (q.x * q.x + q.z * q.z)
  | 1, 2 => 2 * (q.y * q.z - q.x * q.w)
  | 1, 3 => -eye.y
  | 2, 0 => 2 * (q.x * q.z - q.y * q.w)
  | 2, 1 => 2 * (q.y * q.z + q.x * q.w)
  | 2, 2 => 1 - 2 * (q.x * q.x + q.y * q.y)
  | 2, 3 => -eye.z
  | 3, 3 => 1
  | _, _ => 0

/-- An instance of the two absent matrix constructors with `example_look_at` as look-at. -/
def rotation_omath : omath :=
  { omat4x4f_init_look_at := example_look_at
    omat4x4f_init_perspective := example_omath.omat4x4f_init_perspective }

/-- A device whose cached projection matrices are the ones derived from its properties. -/
def example_coherent_device : ohmd_device :=
  { example_new_device with
    properties :=
      (ohmd_calc_default_proj_matrices example_omath example_properties).getD
        example_properties }

/-- The descriptor the vendor driver at address 11 enumerates. -/
def vendor_desc : ohmd_device_desc :=
  { vendor := "Oculus VR, Inc.".toList, product := "Rift (Devkit)".toList,
    path := "0001:0004:00".toList, driver_ptr := some 11 }

/-- A vendor driver that enumerates one device and whose `open_device` returns `NULL`. -/
def vendor_driver : ohmd_driver :=
  { get_device_list := fun list =>
      { num_devices := list.num_devices + 1
        devices := Function.update list.devices list.num_devices.toNat vendor_desc }
    open_device := fun _ _ => none }

/-- A context with two drivers, the vendor driver first and the example driver last, the
device list `list` from an earlier probe, and no open device. -/
def example_world_two_drivers (list : ohmd_device_list) : world :=
  { ctx_addr := 1
    ctx :=
      { drivers := fun i => if i = 0 then some 11 else if i = 1 then some 10 else none
        num_drivers := 2
        list := list
        active_devices := fun _ => none
        active_devices_len := 256
        num_active_devices := 0 }
    drivers := fun a =>
      if a = 11 then some vendor_driver
      else if a = 10 then some (example_driver example_new_device) else none
    devices := fun _ => none
    thread_str := []
    ohmd_error_msg := "" }

/-- A device list left by an earlier probe: three devices. -/
def stale_list : ohmd_device_list :=
  { num_devices := 3, devices := fun _ => example_desc }

/-- The example context with 256 open devices: address `1000 + i` at position `i`. -/
def example_world_full : world :=
  { ctx_addr := 1
    ctx :=
      { drivers := fun i => if i = 0 then some 10 else none
        num_drivers := 1
        list :=
          { num_devices := 1
            devices := fun i => if i = 0 then example_desc else ohmd_device_desc_zero }
        active_devices := fun i => if i < 256 then some (1000 + i) else none
        active_devices_len := 256
        num_active_devices := 256 }
    drivers := fun a => if a = 10 then some (example_driver example_new_device) else none
    devices := fun a =>
      if 1000 ≤ a ∧ a < 1256 then
        some { example_new_device with
                rotation_correction := quatf_identity
                active_device_idx := ((a - 1000 : Nat) : Int)
                ctx := some 1 }
      else none
    thread_str := []
    ohmd_error_msg := "" }

/-! ## Pose corrections: `ohmd_device_getf` and `ohmd_device_setf` -/

open ohmd_float_value

@[simp]
theorem load_store_quatf (p : fbuf) (q : quatf) : load_quatf (store_quatf p q) = q := by
  cases q; simp [load_quatf, store_quatf]

@[simp]
theorem load_store_vec3f (p : fbuf) (v : vec3f) : load_vec3f (store_vec3f p v) = v := by
  cases v; simp [load_vec3f, store_vec3f]

/-- What the rotation read computes when the driver's getter succeeds with raw orientation
`r`: the correction is applied on both sides, `c * (r * c)`. -/
theorem ohmd_device_getf_rotation (lib : omath) (d : ohmd_device) (r : quatf) (out : fbuf)
    (hret : (d.getf OHMD_ROTATION_QUAT out).1 = 0)
    (hraw : load_quatf (d.getf OHMD_ROTATION_QUAT out).2 = r) :
    (ohmd_device_getf lib d OHMD_ROTATION_QUAT out).1 = 0 ∧
    load_quatf (ohmd_device_getf lib d OHMD_ROTATION_QUAT out).2 =
      oquatf_mult_me d.rotation_correction (oquatf_mult_me r d.rotation_correction) := by
  simp [ohmd_device_getf, hret, hraw]

/-- What a rotation write followed by a rotation read computes when the driver's getter
succeeds with the fixed raw orientation `r`: with `c = r^-1 * Q` the stored correction, the
read yields `c * (r * c)`. -/
theorem rotation_set_then_get (lib : omath) (d : ohmd_device) (r : quatf) (target out : fbuf)
    (hraw : ∀ buf, (d.getf OHMD_ROTATION_QUAT buf).1 = 0 ∧
      load_quatf (d.getf OHMD_ROTATION_QUAT buf).2 = r) :
    (ohmd_device_setf d OHMD_ROTATION_QUAT target).1 = 0 ∧
    (ohmd_device_setf d OHMD_ROTATION_QUAT target).2.rotation_correction
      = oquatf_diff r (load_quatf target) ∧
    (ohmd_device_getf lib (ohmd_device_setf d OHMD_ROTATION_QUAT target).2
        OHMD_ROTATION_QUAT out).1 = 0 ∧
    load_quatf (ohmd_device_getf lib (ohmd_device_setf d OHMD_ROTATION_QUAT target).2
        OHMD_ROTATION_QUAT out).2
      = oquatf_mult_me (oquatf_diff r (load_quatf target))
          (oquatf_mult_me r (oquatf_diff r (load_quatf target))) := by
  have h0 := hraw fbuf_zero
  have hs : ohmd_device_setf d OHMD_ROTATION_QUAT target =
      (0, { d with rotation_correction := oquatf_diff r (load_quatf target) }) := by
    simp [ohmd_device_setf, h0.1, h0.2]
  rw [hs]
  have h1 := ohmd_device_getf_rotation lib
    { d with rotation_correction := oquatf_diff r (load_quatf target) } r out
    (hraw out).1 (hraw out).2
  exact ⟨rfl, rfl, h1.1, h1.2⟩

/-- The stored correction `r^-1 * Q` gives `Q` back when it is applied once, on the right of
a raw orientation `r` of non-zero norm: `r * (r^-1 * Q) = Q`. -/
theorem oquatf_mult_diff (r q : quatf)
    (hr : r.x * r.x + r.y * r.y + r.z * r.z + r.w * r.w ≠ 0) :
    oquatf_mult_me r (oquatf_diff r q) = q := by
  cases r with
  | mk rx ry rz rw =>
    cases q with
    | mk qx qy qz qw =>
      simp only [oquatf_diff, oquatf_inverse, oquatf_mult_me, quatf.mk.injEq] at hr ⊢
      refine ⟨?_, ?_, ?_, ?_⟩ <;> field_simp <;> ring

/-- C3 (calibration round-trip), evaluated at raw orientation `r = (0,0,0,1)` and target
`Q = (1,0,0,0)`, both unit quaternions: `ohmd_device_setf(ROTATION_QUAT, Q)` succeeds and
stores the correction `r^-1 * Q = (1,0,0,0)`, and the read that follows succeeds and yields
`(0,0,0,-1)`, which is not `Q`. -/
theorem rotation_round_trip_at_failing_input :
    (ohmd_device_setf (example_device quatf_identity quatf_identity ⟨0, 0, 0⟩)
        OHMD_ROTATION_QUAT (store_quatf fbuf_zero ⟨1, 0, 0, 0⟩)).1 = 0 ∧
    (ohmd_device_setf (example_device quatf_identity quatf_identity ⟨0, 0, 0⟩)
        OHMD_ROTATION_QUAT (store_quatf fbuf_zero ⟨1, 0, 0, 0⟩)).2.rotation_correction
      = ⟨1, 0, 0, 0⟩ ∧
    (ohmd_device_getf example_omath
        (ohmd_device_setf (example_device quatf_identity quatf_identity ⟨0, 0, 0⟩)
          OHMD_ROTATION_QUAT (store_quatf fbuf_zero ⟨1, 0, 0, 0⟩)).2
        OHMD_ROTATION_QUAT fbuf_zero).1 = 0 ∧
    load_quatf (ohmd_device_getf example_omath
        (ohmd_device_setf (example_device quatf_identity quatf_identity ⟨0, 0, 0⟩)
          OHMD_ROTATION_QUAT (store_quatf fbuf_zero ⟨1, 0, 0, 0⟩)).2
        OHMD_ROTATION_QUAT fbuf_zero).2 = ⟨0, 0, 0, -1⟩ ∧
    (⟨0, 0, 0, -1⟩ : quatf) ≠ ⟨1, 0, 0, 0⟩ := by
  refine ⟨?_, ?_, ?_, ?_, by decide⟩ <;>
    simp [ohmd_device_setf, ohmd_device_getf, example_device, fixed_pose_getf, oquatf_diff,
      oquatf_inverse, oquatf_mult_me, quatf_identity]

/-- C4 (rotation read is the single composition `c * r`), evaluated at correction
`c = (1,0,0,0)` and raw orientation `r = (0,0,0,1)`: the read returns 0 and writes
`(0,0,0,-1)`, whereas `c * r = (1,0,0,0)`. -/
theorem rotation_read_at_failing_input :
    (ohmd_device_getf example_omath (example_device ⟨1, 0, 0, 0⟩ quatf_identity ⟨0, 0, 0⟩)
        OHMD_ROTATION_QUAT fbuf_zero).1 = 0 ∧
    load_quatf (ohmd_device_getf example_omath
        (example_device ⟨1, 0, 0, 0⟩ quatf_identity ⟨0, 0, 0⟩)
        OHMD_ROTATION_QUAT fbuf_zero).2 = ⟨0, 0, 0, -1⟩ ∧
    oquatf_mult_me ⟨1, 0, 0, 0⟩ quatf_identity = ⟨1, 0, 0, 0⟩ ∧
    (⟨0, 0, 0, -1⟩ : quatf) ≠ ⟨1, 0, 0, 0⟩ := by
  refine ⟨?_, ?_, ?_, by decide⟩ <;>
    simp [ohmd_device_getf, example_device, fixed_pose_getf, oquatf_mult_me, quatf_identity]

/-- C5 (position round-trip): when the driver's getter for `POSITION_VECTOR` succeeds with
the fixed raw position `v`, `ohmd_device_setf(POSITION_VECTOR, t)` returns 0 and sets
`position_correction` to `t - v` component-wise, and the `ohmd_device_getf(POSITION_VECTOR)`
that follows returns 0 and yields `t` in each of the three components. -/
theorem position_round_trip (lib : omath) (d : ohmd_device) (v : vec3f) (t out : fbuf)
    (hraw : ∀ buf, (d.getf OHMD_POSITION_VECTOR buf).1 = 0 ∧
      load_vec3f (d.getf OHMD_POSITION_VECTOR buf).2 = v) :
    (ohmd_device_setf d OHMD_POSITION_VECTOR t).1 = 0 ∧
    (ohmd_device_setf d OHMD_POSITION_VECTOR t).2.position_correction
      = ⟨t 0 - v.x, t 1 - v.y, t 2 - v.z⟩ ∧
    (ohmd_device_getf lib (ohmd_device_setf d OHMD_POSITION_VECTOR t).2
        OHMD_POSITION_VECTOR out).1 = 0 ∧
    load_vec3f (ohmd_device_getf lib (ohmd_device_setf d OHMD_POSITION_VECTOR t).2
        OHMD_POSITION_VECTOR out).2 = ⟨t 0, t 1, t 2⟩ := by
  have h0 := hraw fbuf_zero
  have h1 := hraw out
  have hs : ohmd_device_setf d OHMD_POSITION_VECTOR t =
      (0, { d with position_correction := ⟨t 0 - v.x, t 1 - v.y, t 2 - v.z⟩ }) := by
    simp [ohmd_device_setf, h0.1, h0.2, vec3f.arr]
  rw [hs]
  refine ⟨rfl, rfl, ?_, ?_⟩
  · simp [ohmd_device_getf, h1.1]
  · have hv := h1.2
    simp only [load_vec3f] at hv
    have hx : (d.getf OHMD_POSITION_VECTOR out).2 0 = v.x := by rw [← hv]
    have hy : (d.getf OHMD_POSITION_VECTOR out).2 1 = v.y := by rw [← hv]
    have hz : (d.getf OHMD_POSITION_VECTOR out).2 2 = v.z := by rw [← hv]
    simp [ohmd_device_getf, h1.1, load_vec3f, vec3f.arr, hx, hy, hz]

/-- The position round-trip at raw position `(1, 2, 3)` and target `(5, 7, 11)`. -/
theorem position_round_trip_witness :
    (ohmd_device_setf (example_device quatf_identity quatf_identity ⟨1, 2, 3⟩)
        OHMD_POSITION_VECTOR (store_vec3f fbuf_zero ⟨5, 7, 11⟩)).2.position_correction
      = ⟨4, 5, 8⟩ ∧
    load_vec3f (ohmd_device_getf example_omath
        (ohmd_device_setf (example_device quatf_identity quatf_identity ⟨1, 2, 3⟩)
          OHMD_POSITION_VECTOR (store_vec3f fbuf_zero ⟨5, 7, 11⟩)).2
        OHMD_POSITION_VECTOR fbuf_zero).2 = ⟨5, 7, 11⟩ := by
  have h := position_round_trip example_omath
    (example_device quatf_identity quatf_identity ⟨1, 2, 3⟩) ⟨1, 2, 3⟩
    (store_vec3f fbuf_zero ⟨5, 7, 11⟩) fbuf_zero
    (fun buf => by simp [example_device, fixed_pose_getf])
  refine ⟨?_, ?_⟩
  · rw [h.2.1]; simp [store_vec3f]; norm_num
  · rw [h.2.2.2]; simp [store_vec3f]

/-- C9 (allow-list of `ohmd_device_setf`): for every type other than `EYE_IPD`,
`PROJECTION_ZFAR`, `PROJECTION_ZNEAR`, `ROTATION_QUAT` and `POSITION_VECTOR`, the call
returns `-1` and the device afterwards is the device before, whatever the device's getter
`g` is (the result does not consult it); for the three scalar types of the allow-list the
call returns 0. -/
theorem setf_allow_list (d : ohmd_device) (type : ohmd_float_value) (inp : fbuf)
    (g : ohmd_float_value → fbuf → Int × fbuf)
    (hipd : type ≠ OHMD_EYE_IPD) (hzfar : type ≠ OHMD_PROJECTION_ZFAR)
    (hznear : type ≠ OHMD_PROJECTION_ZNEAR) (hrot : type ≠ OHMD_ROTATION_QUAT)
    (hpos : type ≠ OHMD_POSITION_VECTOR) :
    ohmd_device_setf { d with getf := g } type inp = (-1, { d with getf := g }) ∧
    (ohmd_device_setf d OHMD_EYE_IPD inp).1 = 0 ∧
    (ohmd_device_setf d OHMD_PROJECTION_ZFAR inp).1 = 0 ∧
    (ohmd_device_setf d OHMD_PROJECTION_ZNEAR inp).1 = 0 := by
  refine ⟨?_, rfl, rfl, rfl⟩
  cases type <;> first | rfl | contradiction

/-- The allow-list at `LEFT_EYE_FOV`: the call fails and the device keeps its properties
and both corrections. -/
theorem setf_allow_list_witness :
    ohmd_device_setf (example_device quatf_identity quatf_identity ⟨1, 2, 3⟩)
        OHMD_LEFT_EYE_FOV (store_float fbuf_zero 2)
      = (-1, example_device quatf_identity quatf_identity ⟨1, 2, 3⟩) :=
  (setf_allow_list (example_device quatf_identity quatf_identity ⟨1, 2, 3⟩)
    OHMD_LEFT_EYE_FOV (store_float fbuf_zero 2) (fixed_pose_getf quatf_identity ⟨1, 2, 3⟩)
    (by decide) (by decide) (by decide) (by decide) (by decide)).1

/-! ## Projection matrices: `ohmd_calc_default_proj_matrices` -/

/-- The entries of `T(o) * P`: only row 0 differs from `P`. -/
theorem translate_mult_entry (o : ℚ) (P : mat4x4f) (i j : Fin 4) :
    omat4x4f_mult (omat4x4f_init_translate o 0 0) P i j
      = if i = 0 then P 0 j + o * P 3 j else P i j := by
  fin_cases i <;> simp [omat4x4f_mult, omat4x4f_init_translate]

/-- With `hsize = 0` the division of `ohmd_calc_default_proj_matrices` is by zero. -/
theorem ohmd_calc_default_proj_matrices_none (lib : omath) (props : ohmd_device_properties)
    (hsize : props.hsize = 0) : ohmd_calc_default_proj_matrices lib props = none := by
  simp [ohmd_calc_default_proj_matrices, hsize]

/-- With `hsize ≠ 0`, `ohmd_calc_default_proj_matrices` overwrites `proj_left` and
`proj_right` with `T(+o) * P` and `T(-o) * P` and leaves the other properties alone. -/
theorem ohmd_calc_default_proj_matrices_some (lib : omath) (props : ohmd_device_properties)
    (hsize : props.hsize ≠ 0) :
    ohmd_calc_default_proj_matrices lib props = some
      { props with
        proj_left := omat4x4f_mult
          (omat4x4f_init_translate
            (4 * (props.hsize / 4 - props.lens_sep / 2) / props.hsize) 0 0)
          (lib.omat4x4f_init_perspective props.fov props.ratio props.znear props.zfar)
        proj_right := omat4x4f_mult
          (omat4x4f_init_translate
            (-(4 * (props.hsize / 4 - props.lens_sep / 2) / props.hsize)) 0 0)
          (lib.omat4x4f_init_perspective props.fov props.ratio props.znear props.zfar) } := by
  simp [ohmd_calc_default_proj_matrices, hsize]

/-- C10 as stated fails, at a property set with `hsize = 0` and `lens_sep = 0 = hsize / 2`
(the other properties as in the example): the offset `4 * lens_shift / hsize` is a division
by zero, so `ohmd_calc_default_proj_matrices` yields no pair of matrices `T(+o) * P`,
`T(-o) * P`, and no two identical matrices. -/
theorem proj_matrices_counterexample :
    ({ example_properties with hsize := 0, lens_sep := 0 } : ohmd_device_properties).lens_sep
      = ({ example_properties with hsize := 0, lens_sep := 0 }
          : ohmd_device_properties).hsize / 2 ∧
    ohmd_calc_default_proj_matrices example_omath
        { example_properties with hsize := 0, lens_sep := 0 } = none ∧
    ¬ ∃ derived, ohmd_calc_default_proj_matrices example_omath
        { example_properties with hsize := 0, lens_sep := 0 } = some derived ∧
      derived.proj_left = derived.proj_right := by
  have hnone : ohmd_calc_default_proj_matrices example_omath
      { example_properties with hsize := 0, lens_sep := 0 } = none :=
    ohmd_calc_default_proj_matrices_none _ _ rfl
  refine ⟨by norm_num, hnone, ?_⟩
  rintro ⟨derived, h, _⟩
  rw [hnone] at h
  exact Option.noConfusion h

/-- C10, amended (projection symmetry): for every property set with `hsize ≠ 0`, with `P`
the base perspective of `fov, ratio, znear, zfar` and
`o = 4 * (hsize / 4 - lens_sep / 2) / hsize`, `ohmd_calc_default_proj_matrices` returns and
stores `proj_left = T(+o) * P` and `proj_right = T(-o) * P`; entry by entry the two agree
outside row 0, and in row 0 they are `P 0 j + o * P 3 j` and `P 0 j - o * P 3 j`; and when
`lens_sep = hsize / 2` the two matrices are equal. -/
theorem proj_matrices_symmetry (lib : omath) (props : ohmd_device_properties)
    (hsize : props.hsize ≠ 0) :
    ∃ derived, ohmd_calc_default_proj_matrices lib props = some derived ∧
      derived.proj_left
        = omat4x4f_mult
            (omat4x4f_init_translate
              (4 * (props.hsize / 4 - props.lens_sep / 2) / props.hsize) 0 0)
            (lib.omat4x4f_init_perspective props.fov props.ratio props.znear props.zfar) ∧
      derived.proj_right
        = omat4x4f_mult
            (omat4x4f_init_translate
              (-(4 * (props.hsize / 4 - props.lens_sep / 2) / props.hsize)) 0 0)
            (lib.omat4x4f_init_perspective props.fov props.ratio props.znear props.zfar) ∧
      (∀ i j : Fin 4, i ≠ 0 → derived.proj_left i j = derived.proj_right i j) ∧
      (∀ j : Fin 4,
        derived.proj_left 0 j
          = lib.omat4x4f_init_perspective props.fov props.ratio props.znear props.zfar 0 j
            + 4 * (props.hsize / 4 - props.lens_sep / 2) / props.hsize
              * lib.omat4x4f_init_perspective props.fov props.ratio props.znear props.zfar
                  3 j ∧
        derived.proj_right 0 j
          = lib.omat4x4f_init_perspective props.fov props.ratio props.znear props.zfar 0 j
            - 4 * (props.hsize / 4 - props.lens_sep / 2) / props.hsize
              * lib.omat4x4f_init_perspective props.fov props.ratio props.znear props.zfar
                  3 j) ∧
      (props.lens_sep = props.hsize / 2 → derived.proj_left = derived.proj_right) := by
  refine ⟨_, ohmd_calc_default_proj_matrices_some lib props hsize, rfl, rfl, ?_, ?_, ?_⟩
  · intro i j hi
    show omat4x4f_mult _ _ i j = omat4x4f_mult _ _ i j
    rw [translate_mult_entry, translate_mult_entry]
    simp [hi]
  · intro j
    constructor
    · show omat4x4f_mult _ _ 0 j = _
      rw [translate_mult_entry]
      simp
    · show omat4x4f_mult _ _ 0 j = _
      rw [translate_mult_entry]
      simp; ring
  · intro h
    have ho : 4 * (props.hsize / 4 - props.lens_sep / 2) / props.hsize = 0 := by
      rw [h]
      have : props.hsize / 4 - props.hsize / 2 / 2 = 0 := by ring
      rw [this]; simp
    show omat4x4f_mult _ _ = omat4x4f_mult _ _
    rw [ho]
    simp

/-- The amended C10 at properties with `hsize = 3/20` and `lens_sep = 3/40 = hsize / 2`:
the derivation returns, and the two matrices are equal. -/
theorem proj_matrices_symmetry_witness :
    ({ example_properties with lens_sep := 3 / 40 } : ohmd_device_properties).hsize ≠ 0 ∧
    ({ example_properties with lens_sep := 3 / 40 } : ohmd_device_properties).lens_sep
      = ({ example_properties with lens_sep := 3 / 40 } : ohmd_device_properties).hsize / 2 ∧
    ∃ derived, ohmd_calc_default_proj_matrices example_omath
        { example_properties with lens_sep := 3 / 40 } = some derived ∧
      derived.proj_left = derived.proj_right := by
  have hsize :
      ({ example_properties with lens_sep := 3 / 40 } : ohmd_device_properties).hsize ≠ 0 := by
    simp [example_properties]
  have hsep :
      ({ example_properties with lens_sep := 3 / 40 } : ohmd_device_properties).lens_sep
        = ({ example_properties with lens_sep := 3 / 40 }
            : ohmd_device_properties).hsize / 2 := by
    simp [example_properties]; norm_num
  obtain ⟨derived, h, _, _, _, _, heq⟩ :=
    proj_matrices_symmetry example_omath { example_properties with lens_sep := 3 / 40 } hsize
  exact ⟨hsize, hsep, derived, h, heq hsep⟩

/-! ## Enumeration and opening: `ohmd_list_gets` and `ohmd_list_open_device` -/

open ohmd_string_value

/-- `ohmd_list_gets` with `index >= count` returns `NULL` and changes nothing. -/
theorem ohmd_list_gets_index_ge_count (n : Nat) (w : world) (index : Int)
    (type : ohmd_string_value) (h : index ≥ w.ctx.list.num_devices) :
    ohmd_list_gets n w index type = some (none, w) := by
  simp [ohmd_list_gets, h]

/-- `ohmd_list_open_device` with `index >= count` or `index < 0` returns `NULL`, records an
error message, and changes neither the device list, nor the active sequence, nor any
device. -/
theorem ohmd_list_open_device_out_of_range (w : world) (index : Int)
    (h : index ≥ w.ctx.list.num_devices ∨ index < 0) :
    ohmd_list_open_device w index
      = some (none, { w with ohmd_error_msg := "no device with index: " ++ toString index }) := by
  have : ¬ (index ≥ 0 ∧ index < w.ctx.list.num_devices) := by omega
  simp [ohmd_list_open_device, this]

/-- `ohmd_list_gets` with a negative index, a non-negative count and one of the three string
fields: the index passes the only test (`index >= count`) and `devices[index]` is read
before the start of the array. -/
theorem ohmd_list_gets_negative_index (n : Nat) (w : world) (index : Int)
    (type : ohmd_string_value) (hneg : index < 0) (hcount : 0 ≤ w.ctx.list.num_devices)
    (htype : type = OHMD_VENDOR ∨ type = OHMD_PRODUCT ∨ type = OHMD_PATH) :
    ohmd_list_gets n w index type = none := by
  have : ¬ index ≥ w.ctx.list.num_devices := by omega
  rcases htype with h | h | h <;> simp [ohmd_list_gets, this, hneg, h]

/-- C6 (out-of-range access), evaluated at index `-1`, field `VENDOR`, on a context whose
snapshot holds one device: `ohmd_list_gets` does not return `NULL`; it reads the descriptor
slot `devices[-1]`, which lies before the array (the model's `none`).  On the same context
`ohmd_list_open_device(ctx, -1)` does return `NULL`. -/
theorem list_gets_at_failing_input :
    ohmd_list_gets 256 (example_world failing_driver) (-1) OHMD_VENDOR = none ∧
    (ohmd_list_open_device (example_world failing_driver) (-1)).map Prod.fst
      = some none := by
  constructor
  · simp [ohmd_list_gets, example_world]
  · simp [ohmd_list_open_device, example_world]

/-- `ohmd_list_open_device` with an index in range whose driver returns `NULL`: the store
`device->rotation_correction.w = 1` precedes the `NULL` test and goes through `NULL`. -/
theorem ohmd_list_open_device_driver_null (w : world) (index : Int) (driver : ohmd_driver)
    (hlo : index ≥ 0) (hhi : index < w.ctx.list.num_devices)
    (hdrv : (w.ctx.list.devices index.toNat).driver_ptr.bind w.drivers = some driver)
    (hnull : driver.open_device (w.ctx.list.devices index.toNat) w.devices = none) :
    ohmd_list_open_device w index = none := by
  simp [ohmd_list_open_device, hlo, hhi, hdrv, hnull]

/-- C7 (driver open failure), evaluated at index 0 of a context whose only driver returns
`NULL` from `open_device`: `ohmd_list_open_device` does not return; it stores to
`device->rotation_correction.w` through the `NULL` pointer (the model's `none`). -/
theorem open_device_at_failing_input :
    failing_driver.open_device example_desc (example_world failing_driver).devices = none ∧
    ohmd_list_open_device (example_world failing_driver) 0 = none := by
  constructor
  · rfl
  · simp [ohmd_list_open_device, example_world, example_desc, failing_driver]

/-- The memory after a successful `ohmd_list_open_device`. -/
theorem ohmd_list_open_device_eq (w : world) (index : Int) (driver : ohmd_driver) (p : Nat)
    (obj : ohmd_device)
    (hlo : index ≥ 0) (hhi : index < w.ctx.list.num_devices)
    (hdrv : (w.ctx.list.devices index.toNat).driver_ptr.bind w.drivers = some driver)
    (hopen : driver.open_device (w.ctx.list.devices index.toNat) w.devices = some (p, obj))
    (hnum : 0 ≤ w.ctx.num_active_devices)
    (hcap : w.ctx.num_active_devices < w.ctx.active_devices_len) :
    ohmd_list_open_device w index = some (some p,
      { w with
        devices := Function.update w.devices p (some
          { obj with
            rotation_correction := ⟨obj.rotation_correction.x, obj.rotation_correction.y,
              obj.rotation_correction.z, 1⟩
            ctx := some w.ctx_addr
            active_device_idx := w.ctx.num_active_devices })
        ctx := { w.ctx with
          active_devices :=
            Function.update w.ctx.active_devices w.ctx.num_active_devices.toNat (some p)
          num_active_devices := w.ctx.num_active_devices + 1 } }) := by
  have hn : ¬ (w.ctx.num_active_devices < 0 ∨
      w.ctx.num_active_devices ≥ w.ctx.active_devices_len) := by omega
  simp only [ohmd_list_open_device, hlo, hhi, and_self, if_true, hdrv, hopen, hn, if_false]

/-- `ohmd_list_open_device` with an index in range, a device returned by the driver and an
active array that is full (`count >= active_devices_len`): the store
`ctx->active_devices[ctx->num_active_devices++] = device` goes past the end of the array. -/
theorem ohmd_list_open_device_full (w : world) (index : Int) (driver : ohmd_driver) (p : Nat)
    (obj : ohmd_device)
    (hlo : index ≥ 0) (hhi : index < w.ctx.list.num_devices)
    (hdrv : (w.ctx.list.devices index.toNat).driver_ptr.bind w.drivers = some driver)
    (hopen : driver.open_device (w.ctx.list.devices index.toNat) w.devices = some (p, obj))
    (hfull : w.ctx.num_active_devices ≥ w.ctx.active_devices_len) :
    ohmd_list_open_device w index = none := by
  have hn : w.ctx.num_active_devices < 0 ∨
      w.ctx.num_active_devices ≥ w.ctx.active_devices_len := Or.inr hfull
  simp only [ohmd_list_open_device, hlo, hhi, and_self, if_true, hdrv, hopen, hn]

/-- C8 as stated fails: the driver leaves `rotation_correction = (1, 0, 0, 0)` in the device
it returns; the open succeeds (returns the device at address 100) and the device's
`rotation_correction` afterwards is `(1, 0, 0, 1)`, not the identity. -/
theorem open_device_rotation_correction_counterexample :
    (ohmd_list_open_device
        (example_world (example_driver (example_device ⟨1, 0, 0, 0⟩ quatf_identity ⟨0, 0, 0⟩)))
        0).map Prod.fst = some (some 100) ∧
    (ohmd_list_open_device
        (example_world (example_driver (example_device ⟨1, 0, 0, 0⟩ quatf_identity ⟨0, 0, 0⟩)))
        0).bind (fun r => (r.2.devices 100).map ohmd_device.rotation_correction)
      = some ⟨1, 0, 0, 1⟩ ∧
    (⟨1, 0, 0, 1⟩ : quatf) ≠ quatf_identity := by
  refine ⟨?_, ?_, by decide⟩ <;>
    simp [ohmd_list_open_device, example_world, example_desc, example_driver, example_device]

/-- C8, amended: for an index in range whose driver returns a device object `obj` at address
`p`, in a context whose active array has a free slot (active count `n` with
`0 <= n < active_devices_len`), `ohmd_list_open_device` returns `p`; afterwards
the device at `p` is `obj` with `rotation_correction.w = 1` (its `x, y, z` as the driver
left them), `ctx` the context and `active_device_idx = n`; slot `n` of the active array
holds `p` and the active count is `n + 1`, so the device is the last entry of the active
sequence; and the rotation correction is the identity `(0, 0, 0, 1)` exactly when the
driver left `x = y = z = 0`. -/
theorem open_device_success (w : world) (index : Int) (driver : ohmd_driver) (p : Nat)
    (obj : ohmd_device)
    (hlo : index ≥ 0) (hhi : index < w.ctx.list.num_devices)
    (hdrv : (w.ctx.list.devices index.toNat).driver_ptr.bind w.drivers = some driver)
    (hopen : driver.open_device (w.ctx.list.devices index.toNat) w.devices = some (p, obj))
    (hnum : 0 ≤ w.ctx.num_active_devices)
    (hcap : w.ctx.num_active_devices < w.ctx.active_devices_len) :
    ∃ w1, ohmd_list_open_device w index = some (some p, w1) ∧
      w1.devices p = some
        { obj with
          rotation_correction := ⟨obj.rotation_correction.x, obj.rotation_correction.y,
            obj.rotation_correction.z, 1⟩
          ctx := some w.ctx_addr
          active_device_idx := w.ctx.num_active_devices } ∧
      w1.ctx_addr = w.ctx_addr ∧
      w1.ctx.num_active_devices = w.ctx.num_active_devices + 1 ∧
      w1.ctx.active_devices w.ctx.num_active_devices.toNat = some p ∧
      (∀ k : Nat, (k : Int) < w.ctx.num_active_devices →
        w1.ctx.active_devices k = w.ctx.active_devices k) ∧
      active_sequence w1 = active_sequence w ++ [some p] ∧
      ((w1.devices p).map ohmd_device.rotation_correction = some quatf_identity ↔
        obj.rotation_correction.x = 0 ∧ obj.rotation_correction.y = 0 ∧
          obj.rotation_correction.z = 0) := by
  have heq := ohmd_list_open_device_eq w index driver p obj hlo hhi hdrv hopen hnum hcap
  refine ⟨_, heq, ?_, rfl, rfl, ?_, ?_, ?_, ?_⟩
  · simp
  · simp
  · intro k hk
    have : k ≠ w.ctx.num_active_devices.toNat := by omega
    simp [Function.update, this]
  · obtain ⟨m, hm⟩ := Int.eq_ofNat_of_zero_le hnum
    have h1 : (w.ctx.num_active_devices + 1).toNat = m + 1 := by omega
    have h2 : w.ctx.num_active_devices.toNat = m := by omega
    simp only [active_sequence, h1, h2]
    rw [List.range_succ, List.map_append]
    simp only [List.map_cons, List.map_nil, Function.update_same]
    congr 1
    apply List.map_congr_left
    intro a ha
    have : a ≠ m := by
      have := List.mem_range.mp ha
      omega
    simp [Function.update, this]
  · simp [quatf_identity]

/-- The amended C8 on the example context: the driver leaves a zero-filled
`rotation_correction`; opening index 0 returns the device at address 100, as the only entry
of the active sequence, with position 0 and the identity as rotation correction. -/
theorem open_device_success_witness :
    (ohmd_list_open_device (example_world (example_driver example_new_device)) 0).map
        (fun r => (r.1, active_sequence r.2,
          (r.2.devices 100).map ohmd_device.rotation_correction,
          (r.2.devices 100).map ohmd_device.active_device_idx))
      = some (some 100, [some 100], some quatf_identity, some 0) := by
  obtain ⟨w1, h, hdev, _, _, _, _, hseq, hid⟩ :=
    open_device_success (example_world (example_driver example_new_device)) 0
      (example_driver example_new_device) 100 example_new_device
      (by decide) (by simp [example_world]) (by simp [example_world, example_desc])
      (by simp [example_world, example_driver]) (by simp [example_world])
      (by simp [example_world])
  have hid1 := hid.mpr (by simp [example_new_device, example_device])
  rw [h, Option.map_some', hseq, hid1, hdev]
  simp [active_sequence, example_world]

/-! ## Closing: `ohmd_close_device` -/

/-- The reindexing loop over the slots `i .. i + n - 1`, when they hold pairwise different
live devices: it completes, decrements `active_device_idx` of exactly the devices in those
slots, and leaves every other address alone. -/
theorem reindex_loop_spec (arr : Nat → Option Nat) :
    ∀ (n i : Nat) (mem : device_memory),
      (∀ j, i ≤ j → j < i + n → ∃ q obj, arr j = some q ∧ mem q = some obj) →
      (∀ j1 j2, i ≤ j1 → j1 < i + n → i ≤ j2 → j2 < i + n → arr j1 = arr j2 → j1 = j2) →
      ∃ mem1, reindex_loop arr n i mem = some mem1 ∧
        (∀ q, (∃ j, i ≤ j ∧ j < i + n ∧ arr j = some q) →
          mem1 q = (mem q).map
            (fun obj => { obj with active_device_idx := obj.active_device_idx - 1 })) ∧
        (∀ q, (¬ ∃ j, i ≤ j ∧ j < i + n ∧ arr j = some q) → mem1 q = mem q) := by
  intro n
  induction n with
  | zero =>
    intro i mem _ _
    refine ⟨mem, rfl, ?_, fun _ _ => rfl⟩
    rintro q ⟨j, h1, h2, _⟩
    omega
  | succ n ih =>
    intro i mem hlive hinj
    obtain ⟨p, obj, hp, hobj⟩ := hlive i (le_refl _) (by omega)
    have hne : ∀ j q, i + 1 ≤ j → j < i + 1 + n → arr j = some q → q ≠ p := by
      intro j q h1 h2 hq hqp
      have := hinj j i (by omega) (by omega) (le_refl _) (by omega) (by rw [hq, hp, hqp])
      omega
    obtain ⟨mem1, hrun, hin, hout⟩ := ih (i + 1)
      (Function.update mem p
        (some { obj with active_device_idx := obj.active_device_idx - 1 }))
      (by
        intro j h1 h2
        obtain ⟨q, o, hq, ho⟩ := hlive j (by omega) (by omega)
        refine ⟨q, o, hq, ?_⟩
        rw [Function.update_noteq (hne j q h1 h2 hq)]
        exact ho)
      (fun j1 j2 _ _ _ _ e => hinj j1 j2 (by omega) (by omega) (by omega) (by omega) e)
    refine ⟨mem1, ?_, ?_, ?_⟩
    · simp only [reindex_loop, hp, hobj]
      exact hrun
    · rintro q ⟨j, h1, h2, hq⟩
      by_cases hji : j = i
      · subst hji
        have hqp : q = p := by
          rw [hp] at hq
          exact (Option.some.inj hq).symm
        subst hqp
        have hnot : ¬ ∃ j1, j + 1 ≤ j1 ∧ j1 < j + 1 + n ∧ arr j1 = some q := by
          rintro ⟨j1, a, b, c⟩
          exact hne j1 q a b c rfl
        rw [hout q hnot, Function.update_same, hobj]
        rfl
      · have hqp : q ≠ p := hne j q (by omega) (by omega) hq
        rw [hin q ⟨j, by omega, by omega, hq⟩, Function.update_noteq hqp]
    · intro q hq
      have hqp : q ≠ p := by
        intro h
        exact hq ⟨i, le_refl _, by omega, by rw [h]; exact hp⟩
      have hnot : ¬ ∃ j1, i + 1 ≤ j1 ∧ j1 < i + 1 + n ∧ arr j1 = some q := by
        rintro ⟨j1, a, b, c⟩
        exact hq ⟨j1, by omega, by omega, c⟩
      rw [hout q hnot, Function.update_noteq hqp]

/-- Under the index invariant two positions of the active sequence that hold the same
device are the same position. -/
theorem index_invariant_injective (w : world) (hinv : index_invariant w) (j1 j2 : Nat)
    (h1 : (j1 : Int) < w.ctx.num_active_devices) (h2 : (j2 : Int) < w.ctx.num_active_devices)
    (heq : w.ctx.active_devices j1 = w.ctx.active_devices j2) : j1 = j2 := by
  obtain ⟨q1, o1, a1, b1, c1, _⟩ := hinv.2 j1 h1
  obtain ⟨q2, o2, a2, b2, c2, _⟩ := hinv.2 j2 h2
  rw [a1, a2] at heq
  have hq : q1 = q2 := Option.some.inj heq
  subst hq
  rw [b1] at b2
  have ho : o1 = o2 := Option.some.inj b2
  subst ho
  rw [c1] at c2
  exact_mod_cast c2

/-- What `ohmd_close_device` does to an open device `p` at position `k` of a context that
satisfies the index invariant. -/
theorem ohmd_close_device_spec (w : world) (k p : Nat) (hinv : index_invariant w)
    (hopen : open_at w k p) :
    ∃ w1, ohmd_close_device w p = some (0, w1) ∧
      w1.ctx_addr = w.ctx_addr ∧
      w1.ctx.list = w.ctx.list ∧
      w1.ctx.num_active_devices = w.ctx.num_active_devices - 1 ∧
      (∀ j : Nat, w1.ctx.active_devices j =
        if k ≤ j ∧ (j : Int) < w.ctx.num_active_devices - 1 then w.ctx.active_devices (j + 1)
        else w.ctx.active_devices j) ∧
      w1.devices p = none ∧
      (∀ (j q : Nat) (obj : ohmd_device), (j : Int) < w.ctx.num_active_devices → j ≠ k →
        w.ctx.active_devices j = some q → w.devices q = some obj →
        w1.devices q = some
          { obj with
            active_device_idx :=
              if j < k then obj.active_device_idx else obj.active_device_idx - 1 }) ∧
      (∀ q : Nat, (∀ j : Nat, (j : Int) < w.ctx.num_active_devices →
          w.ctx.active_devices j ≠ some q) → w1.devices q = w.devices q) := by
  obtain ⟨hk, hkp⟩ := hopen
  obtain ⟨p1, obj, hp1, hobj, hidx, hctx⟩ := hinv.2 k hk
  have hpp : p1 = p := by
    rw [hkp] at hp1
    exact (Option.some.inj hp1).symm
  rw [hpp] at hobj
  clear hp1 hpp p1
  obtain ⟨N, hN⟩ := Int.eq_ofNat_of_zero_le hinv.1
  have hkN : k < N := by omega
  -- the shifted array
  have hmove : memmove_slots w.ctx.active_devices obj.active_device_idx
      (obj.active_device_idx + 1) (w.ctx.num_active_devices - obj.active_device_idx - 1)
      = some (fun j => if k ≤ j ∧ j < N - 1 then w.ctx.active_devices (j + 1)
          else w.ctx.active_devices j) := by
    have hc : ¬ (obj.active_device_idx < 0 ∨ obj.active_device_idx + 1 < 0 ∨
        w.ctx.num_active_devices - obj.active_device_idx - 1 < 0) := by omega
    simp only [memmove_slots, hc, if_false, Option.some.injEq]
    funext j
    have e1 : obj.active_device_idx.toNat = k := by omega
    have e2 : (w.ctx.num_active_devices - obj.active_device_idx - 1).toNat = N - 1 - k := by
      omega
    have e3 : (obj.active_device_idx + 1).toNat = k + 1 := by omega
    rw [e1, e2, e3]
    by_cases hj : k ≤ j ∧ j < N - 1
    · have hj1 : k ≤ j ∧ j < k + (N - 1 - k) := by omega
      have hj2 : k + 1 + (j - k) = j + 1 := by omega
      rw [if_pos hj, if_pos hj1, hj2]
    · have hj1 : ¬ (k ≤ j ∧ j < k + (N - 1 - k)) := by omega
      rw [if_neg hj, if_neg hj1]
  -- the loop
  have hshift : ∀ j, k ≤ j → j < k + (N - 1 - k) →
      (fun j => if k ≤ j ∧ j < N - 1 then w.ctx.active_devices (j + 1)
          else w.ctx.active_devices j) j = w.ctx.active_devices (j + 1) := by
    intro j h1 h2
    have : k ≤ j ∧ j < N - 1 := by omega
    simp only [this, and_self, if_true]
  obtain ⟨mem1, hrun, hin, hout⟩ := reindex_loop_spec
    (fun j => if k ≤ j ∧ j < N - 1 then w.ctx.active_devices (j + 1)
          else w.ctx.active_devices j)
    (N - 1 - k) k (Function.update w.devices p none)
    (by
      intro j h1 h2
      obtain ⟨q, o, hq, ho, hoi, _⟩ := hinv.2 (j + 1) (by omega)
      refine ⟨q, o, by rw [hshift j h1 h2]; exact hq, ?_⟩
      have hqp : q ≠ p := by
        intro h
        have := index_invariant_injective w hinv (j + 1) k (by omega) hk
          (by rw [hq, hkp, h])
        omega
      rw [Function.update_noteq hqp]
      exact ho)
    (by
      intro j1 j2 a1 b1 a2 b2 e
      rw [hshift j1 a1 b1, hshift j2 a2 b2] at e
      have := index_invariant_injective w hinv (j1 + 1) (j2 + 1) (by omega) (by omega) e
      omega)
  have hn : (w.ctx.num_active_devices - 1 - obj.active_device_idx).toNat = N - 1 - k := by
    omega
  have hi : obj.active_device_idx.toNat = k := by omega
  have hclose : ohmd_close_device w p = some (0,
      { w with
        devices := mem1
        ctx := { w.ctx with
          active_devices := fun j => if k ≤ j ∧ j < N - 1 then w.ctx.active_devices (j + 1)
            else w.ctx.active_devices j
          num_active_devices := w.ctx.num_active_devices - 1 } }) := by
    simp only [ohmd_close_device, hobj, hctx, hmove, hn, hi, hrun, ne_eq, not_true_eq_false,
      if_false]
  refine ⟨_, hclose, rfl, rfl, rfl, ?_, ?_, ?_, ?_⟩
  rotate_left 3
  · intro q hq
    have hqp : q ≠ p := by
      intro h
      exact hq k hk (by rw [hkp, h])
    have hnot : ¬ ∃ j1, k ≤ j1 ∧ j1 < k + (N - 1 - k) ∧
        (fun j => if k ≤ j ∧ j < N - 1 then w.ctx.active_devices (j + 1)
          else w.ctx.active_devices j) j1 = some q := by
      rintro ⟨j1, a, b, c⟩
      rw [hshift j1 a b] at c
      exact hq (j1 + 1) (by omega) c
    show mem1 q = w.devices q
    rw [hout q hnot, Function.update_noteq hqp]
  · intro j
    have : (k ≤ j ∧ (j : Int) < w.ctx.num_active_devices - 1) ↔ (k ≤ j ∧ j < N - 1) := by
      omega
    simp only [this]
  · have hnot : ¬ ∃ j, k ≤ j ∧ j < k + (N - 1 - k) ∧
        (fun j => if k ≤ j ∧ j < N - 1 then w.ctx.active_devices (j + 1)
          else w.ctx.active_devices j) j = some p := by
      rintro ⟨j, a, b, c⟩
      rw [hshift j a b] at c
      have := index_invariant_injective w hinv (j + 1) k (by omega) hk (by rw [c, hkp])
      omega
    show mem1 p = none
    rw [hout p hnot, Function.update_same]
  · intro j q o hj hjk hq ho
    have hqp : q ≠ p := by
      intro h
      have := index_invariant_injective w hinv j k hj hk (by rw [hq, hkp, h])
      exact hjk this
    show mem1 q = _
    by_cases hlt : j < k
    · have hnot : ¬ ∃ j1, k ≤ j1 ∧ j1 < k + (N - 1 - k) ∧
          (fun j => if k ≤ j ∧ j < N - 1 then w.ctx.active_devices (j + 1)
            else w.ctx.active_devices j) j1 = some q := by
        rintro ⟨j1, a, b, c⟩
        rw [hshift j1 a b] at c
        have := index_invariant_injective w hinv (j1 + 1) j (by omega) hj (by rw [c, hq])
        omega
      rw [hout q hnot, Function.update_noteq hqp, ho, if_pos hlt]
    · have hex : ∃ j1, k ≤ j1 ∧ j1 < k + (N - 1 - k) ∧
          (fun j => if k ≤ j ∧ j < N - 1 then w.ctx.active_devices (j + 1)
            else w.ctx.active_devices j) j1 = some q := by
        refine ⟨j - 1, by omega, by omega, ?_⟩
        rw [hshift (j - 1) (by omega) (by omega)]
        have : j - 1 + 1 = j := by omega
        rw [this]
        exact hq
      rw [hin q hex, Function.update_noteq hqp, ho, if_neg hlt]
      rfl

/-- C2 (close removes exactly one entry): for a context satisfying the index invariant and
an open device `p` at position `k`, `ohmd_close_device(p)` returns 0; the active sequence
afterwards is the previous one with the entry at position `k` erased; the active count has
decreased by one; every device that was after position `k` has its `active_device_idx`
decremented and is otherwise unchanged; every device that was before position `k` is
unchanged, and so is every device object that was not in the active sequence. -/
theorem close_device_erases_entry (w : world) (k p : Nat) (hinv : index_invariant w)
    (hopen : open_at w k p) :
    ∃ w1, ohmd_close_device w p = some (0, w1) ∧
      active_sequence w1 = (active_sequence w).eraseIdx k ∧
      w1.ctx.num_active_devices = w.ctx.num_active_devices - 1 ∧
      (∀ (j q : Nat) (obj : ohmd_device), (j : Int) < w.ctx.num_active_devices → k < j →
        w.ctx.active_devices j = some q → w.devices q = some obj →
        w1.devices q
          = some { obj with active_device_idx := obj.active_device_idx - 1 }) ∧
      (∀ (j q : Nat) (obj : ohmd_device), j < k →
        w.ctx.active_devices j = some q → w.devices q = some obj →
        w1.devices q = some obj) ∧
      (∀ q : Nat, (∀ j : Nat, (j : Int) < w.ctx.num_active_devices →
          w.ctx.active_devices j ≠ some q) → w1.devices q = w.devices q) := by
  obtain ⟨w1, hclose, _, _, hnum, harr, _, hdev, hother⟩ :=
    ohmd_close_device_spec w k p hinv hopen
  obtain ⟨N, hN⟩ := Int.eq_ofNat_of_zero_le hinv.1
  have hk : k < N := by
    have := hopen.1
    omega
  refine ⟨w1, hclose, ?_, hnum, ?_, ?_, hother⟩
  · have h1 : w1.ctx.num_active_devices.toNat = N - 1 := by omega
    have h2 : w.ctx.num_active_devices.toNat = N := by omega
    simp only [active_sequence, h1, h2]
    apply List.ext_getElem?
    intro i
    rw [List.getElem?_eraseIdx, List.getElem?_map, List.getElem?_map, List.getElem?_map]
    by_cases hi : i < N - 1
    · rw [List.getElem?_range hi]
      by_cases hik : i < k
      · have hc : ¬ (k ≤ i ∧ (i : Int) < w.ctx.num_active_devices - 1) := by omega
        rw [if_pos hik, List.getElem?_range (by omega), Option.map_some', Option.map_some',
          harr i, if_neg hc]
      · have hc : k ≤ i ∧ (i : Int) < w.ctx.num_active_devices - 1 := by omega
        rw [if_neg hik, List.getElem?_range (by omega), Option.map_some', Option.map_some',
          harr i, if_pos hc]
    · have hik : ¬ i < k := by omega
      have e1 : (List.range (N - 1))[i]? = none := by
        apply List.getElem?_eq_none
        simp only [List.length_range]
        omega
      have e2 : (List.range N)[i + 1]? = none := by
        apply List.getElem?_eq_none
        simp only [List.length_range]
        omega
      rw [if_neg hik, e1, e2]
      rfl
  · intro j q obj hj hkj hq ho
    have := hdev j q obj hj (by omega) hq ho
    rw [this, if_neg (by omega)]
  · intro j q obj hjk hq ho
    have := hdev j q obj (by have := hopen.1; omega) (by omega) hq ho
    rw [this, if_pos hjk]

/-- C2 on the example context with devices 100, 101 open at positions 0, 1: closing device
100 returns 0, leaves the active sequence `[101]` and the count 1, moves device 101 to
position 0 and releases device 100. -/
theorem close_device_erases_entry_witness :
    (ohmd_close_device example_world_two_open 100).map
        (fun r => (r.1, active_sequence r.2, r.2.ctx.num_active_devices,
          (r.2.devices 101).map ohmd_device.active_device_idx))
      = some (0, [some 101], 1, some 0) := by
  obtain ⟨w1, h, hseq, hnum, hafter, _, _⟩ :=
    close_device_erases_entry example_world_two_open 0 100 (by decide) (by decide)
  have h101 := hafter 1 101 _ (by simp [example_world_two_open]) (by decide) rfl rfl
  rw [h, Option.map_some', hseq, hnum, h101]
  simp [active_sequence, example_world_two_open]
  decide

/-! ## The index invariant -/

/-- An admissible `ohmd_list_open_device` call returns and keeps the index invariant. -/
theorem index_invariant_open (w : world) (index : Int) (hinv : index_invariant w)
    (hadm : op_admissible w (.open_device index)) :
    ∃ w1, registry_step w (.open_device index) = some w1 ∧ index_invariant w1 := by
  by_cases hr : index ≥ 0 ∧ index < w.ctx.list.num_devices
  · obtain ⟨hcap, driver, p, obj, hdrv, hopen, hfresh⟩ := hadm hr
    have heq := ohmd_list_open_device_eq w index driver p obj hr.1 hr.2 hdrv hopen hinv.1 hcap
    have hstep : ∃ w1, registry_step w (.open_device index) = some w1 ∧
        w1.ctx_addr = w.ctx_addr ∧
        w1.ctx.num_active_devices = w.ctx.num_active_devices + 1 ∧
        w1.ctx.active_devices
          = Function.update w.ctx.active_devices w.ctx.num_active_devices.toNat (some p) ∧
        w1.devices = Function.update w.devices p (some
          { obj with
            rotation_correction := ⟨obj.rotation_correction.x, obj.rotation_correction.y,
              obj.rotation_correction.z, 1⟩
            ctx := some w.ctx_addr
            active_device_idx := w.ctx.num_active_devices }) := by
      rw [registry_step, heq]
      exact ⟨_, rfl, rfl, rfl, rfl, rfl⟩
    obtain ⟨w1, hw1, haddr, hnum, harr, hdev⟩ := hstep
    have h0 := hinv.1
    refine ⟨w1, hw1, by omega, ?_⟩
    intro k hk
    by_cases hkn : k = w.ctx.num_active_devices.toNat
    · refine ⟨p, ?o, ?h1, ?h2, ?h3, ?h4⟩
      case h1 => rw [harr, hkn, Function.update_same]
      case h2 =>
        rw [hdev, Function.update_same]
        exact rfl
      case h3 =>
        show w.ctx.num_active_devices = (k : Int)
        omega
      case h4 =>
        show some w.ctx_addr = some w1.ctx_addr
        rw [haddr]
    · obtain ⟨q, o, hq, ho, hoi, hoc⟩ := hinv.2 k (by omega)
      have hqp : q ≠ p := by
        intro h
        rw [h, hfresh] at ho
        exact Option.noConfusion ho
      refine ⟨q, o, ?_, ?_, hoi, by rw [haddr]; exact hoc⟩
      · rw [harr, Function.update_noteq hkn]
        exact hq
      · rw [hdev, Function.update_noteq hqp]
        exact ho
  · have heq := ohmd_list_open_device_out_of_range w index (by omega)
    have hstep : registry_step w (.open_device index)
        = some { w with ohmd_error_msg := "no device with index: " ++ toString index } := by
      rw [registry_step, heq]
      rfl
    exact ⟨_, hstep, hinv⟩

/-- A close of a currently open device returns and keeps the index invariant. -/
theorem index_invariant_close (w : world) (p : Nat) (hinv : index_invariant w)
    (hadm : op_admissible w (.close_device p)) :
    ∃ w1, registry_step w (.close_device p) = some w1 ∧ index_invariant w1 := by
  obtain ⟨k, hopen⟩ := hadm
  obtain ⟨w1, hclose, haddr, _, hnum, harr, _, hdev, _⟩ :=
    ohmd_close_device_spec w k p hinv hopen
  have hk := hopen.1
  refine ⟨w1, by simp only [registry_step, hclose, Option.map_some'], ?_, ?_⟩
  · rw [hnum]
    omega
  · intro j hj
    rw [hnum] at hj
    by_cases hjk : j < k
    · obtain ⟨q, o, hq, ho, hoi, hoc⟩ := hinv.2 j (by omega)
      have hc : ¬ (k ≤ j ∧ (j : Int) < w.ctx.num_active_devices - 1) := by omega
      refine ⟨q, _, by rw [harr j, if_neg hc]; exact hq,
        hdev j q o (by omega) (by omega) hq ho, ?_, by rw [haddr]; exact hoc⟩
      show (if j < k then o.active_device_idx else o.active_device_idx - 1) = (j : Int)
      rw [if_pos hjk]
      exact hoi
    · obtain ⟨q, o, hq, ho, hoi, hoc⟩ := hinv.2 (j + 1) (by omega)
      have hc : k ≤ j ∧ (j : Int) < w.ctx.num_active_devices - 1 := by omega
      refine ⟨q, _, by rw [harr j, if_pos hc]; exact hq,
        hdev (j + 1) q o (by omega) (by omega) hq ho, ?_, by rw [haddr]; exact hoc⟩
      show (if j + 1 < k then o.active_device_idx else o.active_device_idx - 1) = (j : Int)
      rw [if_neg (by omega), hoi]
      omega

/-- One admissible call returns and keeps the index invariant. -/
theorem index_invariant_step (w : world) (op : registry_op) (hinv : index_invariant w)
    (hadm : op_admissible w op) :
    ∃ w1, registry_step w op = some w1 ∧ index_invariant w1 := by
  cases op with
  | open_device index => exact index_invariant_open w index hinv hadm
  | close_device p => exact index_invariant_close w p hinv hadm

/-- A sequence of admissible calls runs to its end and keeps the index invariant. -/
theorem index_invariant_run (ops : List registry_op) :
    ∀ w : world, index_invariant w → ops_admissible w ops →
      ∃ w1, registry_run w ops = some w1 ∧ index_invariant w1 := by
  induction ops with
  | nil => exact fun w hinv _ => ⟨w, rfl, hinv⟩
  | cons op ops ih =>
    intro w hinv hadm
    obtain ⟨w1, hstep, hinv1⟩ := index_invariant_step w op hinv hadm.1
    obtain ⟨w2, hrun, hinv2⟩ := ih w1 hinv1 (hadm.2 w1 hstep)
    exact ⟨w2, by simp only [registry_run, hstep, Option.some_bind, hrun], hinv2⟩

/-- Every prefix of an admissible sequence is admissible. -/
theorem ops_admissible_take (ops : List registry_op) :
    ∀ (w : world) (n : Nat), ops_admissible w ops → ops_admissible w (ops.take n) := by
  induction ops with
  | nil => exact fun w n h => by simpa using h
  | cons op ops ih =>
    intro w n h
    cases n with
    | zero => exact trivial
    | succ n => exact ⟨h.1, fun w1 hw1 => ih w1 n (h.2 w1 hw1)⟩

/-- The example context with 256 open devices satisfies the index invariant. -/
theorem example_world_full_invariant : index_invariant example_world_full := by
  refine ⟨by simp [example_world_full], fun k hk => ?_⟩
  have hk1 : k < 256 := by
    simp only [example_world_full] at hk
    omega
  refine ⟨1000 + k,
    { example_new_device with
      rotation_correction := quatf_identity
      active_device_idx := ((1000 + k - 1000 : Nat) : Int)
      ctx := some 1 }, ?_, ?_, ?_, rfl⟩
  · simp [example_world_full, hk1]
  · have : 1000 + k < 1256 := by omega
    simp [example_world_full, this]
  · simp

/-- C1 as stated fails: the example context with an active array of 256 slots and 256 open
devices satisfies the index invariant, index 0 is in range and the driver's open succeeds
with a new device object (address 100, not in use); the single call
`ohmd_list_open_device(ctx, 0)` stores at slot 256, past the end of the array, so the call
is an invalid access and there is no state after it in which the invariant holds. -/
theorem index_invariant_counterexample :
    index_invariant example_world_full ∧
    (0 : Int) < example_world_full.ctx.list.num_devices ∧
    (∃ driver obj,
      (example_world_full.ctx.list.devices 0).driver_ptr.bind example_world_full.drivers
        = some driver ∧
      driver.open_device (example_world_full.ctx.list.devices 0) example_world_full.devices
        = some (100, obj) ∧
      example_world_full.devices 100 = none) ∧
    registry_step example_world_full (.open_device 0) = none ∧
    ¬ ∃ w1, registry_run example_world_full ([registry_op.open_device 0].take 1) = some w1 ∧
      index_invariant w1 := by
  have hstep : registry_step example_world_full (.open_device 0) = none := by
    simp [registry_step, ohmd_list_open_device, example_world_full, example_desc,
      example_driver]
  refine ⟨example_world_full_invariant, by decide, ?_, hstep, ?_⟩
  · exact ⟨example_driver example_new_device, example_new_device,
      by simp [example_world_full, example_desc],
      by simp [example_world_full, example_desc, example_driver],
      by simp [example_world_full]⟩
  · rintro ⟨w1, hrun, _⟩
    simp [registry_run, hstep] at hrun

/-- C1, amended (index invariant): from a context that satisfies the index invariant, along
every finite sequence of `ohmd_list_open_device` calls (any index; for an index in range the
active array has a free slot, `count < active_devices_len`, and the driver's open succeeds
with a new device) and `ohmd_close_device` calls on currently open devices, every call
returns, and after each call (after the first `n` calls, for every `n`) every open device's
`active_device_idx` equals its position in the active sequence and satisfies
`0 <= idx < number of active devices`. -/
theorem index_invariant_preserved (w : world) (ops : List registry_op)
    (hinv : index_invariant w) (hadm : ops_admissible w ops) (n : Nat) :
    ∃ w1, registry_run w (ops.take n) = some w1 ∧ index_invariant w1 ∧
      ∀ (k p : Nat) (obj : ohmd_device), open_at w1 k p → w1.devices p = some obj →
        obj.active_device_idx = k ∧ 0 ≤ obj.active_device_idx ∧
          obj.active_device_idx < w1.ctx.num_active_devices := by
  obtain ⟨w1, hrun, hinv1⟩ :=
    index_invariant_run (ops.take n) w hinv (ops_admissible_take ops w n hadm)
  refine ⟨w1, hrun, hinv1, ?_⟩
  intro k p obj hopen hobj
  obtain ⟨q, o, hq, ho, hoi, _⟩ := hinv1.2 k hopen.1
  rw [hopen.2] at hq
  have hqp : p = q := Option.some.inj hq
  rw [← hqp, hobj] at ho
  have hoo : obj = o := Option.some.inj ho
  rw [hoo, hoi]
  have := hopen.1
  omega

/-- C1 on the example context: the four example calls run to their end and the index
invariant holds afterwards; the remaining open device is 101, at position 0. -/
theorem index_invariant_preserved_witness :
    index_invariant (example_world (example_driver example_new_device)) ∧
    ops_admissible (example_world (example_driver example_new_device)) example_ops ∧
    (∃ w1, registry_run (example_world (example_driver example_new_device))
        (example_ops.take 4) = some w1 ∧ index_invariant w1 ∧
      ∀ (k p : Nat) (obj : ohmd_device), open_at w1 k p → w1.devices p = some obj →
        obj.active_device_idx = k ∧ 0 ≤ obj.active_device_idx ∧
          obj.active_device_idx < w1.ctx.num_active_devices) ∧
    (registry_run (example_world (example_driver example_new_device)) example_ops).map
        (fun w => (active_sequence w, (w.devices 101).map ohmd_device.active_device_idx))
      = some ([some 101], some 0) :=
  ⟨by decide, by decide,
    index_invariant_preserved (example_world (example_driver example_new_device)) example_ops
      (by decide) (by decide) 4,
    by
      simp [registry_run, registry_step, ohmd_list_open_device, ohmd_close_device,
        example_world, example_desc, example_driver, Function.update, memmove_slots,
        reindex_loop, example_new_device, example_device, example_ops, active_sequence]
      decide⟩

/-! ## Pose corrections: neutral corrections, failures, modelview matrices -/

/-- Storing back the quaternion just loaded leaves the buffer as it is. -/
theorem store_load_quatf (p : fbuf) : store_quatf p (load_quatf p) = p := by
  funext i
  simp only [store_quatf, load_quatf]
  split_ifs with h0 h1 h2 h3 <;> simp_all

@[simp]
theorem load_store_mat4x4f (p : fbuf) (m : mat4x4f) :
    load_mat4x4f (store_mat4x4f p m) = m := by
  funext i j
  fin_cases i <;> fin_cases j <;> simp [load_mat4x4f, store_mat4x4f]

/-- With the identity as correction the doubled product of the rotation read is the raw
orientation: `1 * (q * 1) = q`. -/
theorem oquatf_mult_me_identity (q : quatf) :
    oquatf_mult_me quatf_identity (oquatf_mult_me q quatf_identity) = q := by
  cases q
  simp [oquatf_mult_me, quatf_identity]

/-- C20 (neutral corrections are transparent): for a device whose `rotation_correction` is
the identity `(0,0,0,1)` and whose `position_correction` is the zero vector,
`ohmd_device_getf(ROTATION_QUAT)` and `ohmd_device_getf(POSITION_VECTOR)` return exactly
what the device's getter returns: the same return code and the same floats behind `out`,
whatever the raw value is. -/
theorem neutral_corrections_transparent (lib : omath) (d : ohmd_device) (out : fbuf)
    (hrot : d.rotation_correction = quatf_identity)
    (hpos : d.position_correction = ⟨0, 0, 0⟩) :
    ohmd_device_getf lib d OHMD_ROTATION_QUAT out = d.getf OHMD_ROTATION_QUAT out ∧
    ohmd_device_getf lib d OHMD_POSITION_VECTOR out = d.getf OHMD_POSITION_VECTOR out := by
  constructor
  · simp only [ohmd_device_getf, hrot]
    split_ifs with h
    · rfl
    · have h0 : (d.getf OHMD_ROTATION_QUAT out).1 = 0 := by simpa using h
      rw [load_store_quatf, oquatf_mult_me_identity]
      have hbuf : store_quatf (store_quatf (d.getf OHMD_ROTATION_QUAT out).2
          (oquatf_mult_me (load_quatf (d.getf OHMD_ROTATION_QUAT out).2) quatf_identity))
          (load_quatf (d.getf OHMD_ROTATION_QUAT out).2)
            = (d.getf OHMD_ROTATION_QUAT out).2 := by
        funext i
        simp only [store_quatf, load_quatf]
        split_ifs <;> simp_all
      rw [hbuf, ← h0]
  · simp only [ohmd_device_getf, hpos]
    split_ifs with h
    · rfl
    · have h0 : (d.getf OHMD_POSITION_VECTOR out).1 = 0 := by simpa using h
      have hbuf : (fun i => if i < 3 then (d.getf OHMD_POSITION_VECTOR out).2 i
          + (⟨0, 0, 0⟩ : vec3f).arr i else (d.getf OHMD_POSITION_VECTOR out).2 i)
          = (d.getf OHMD_POSITION_VECTOR out).2 := by
        funext i
        simp [vec3f.arr]
      rw [hbuf, ← h0]

/-- C20 on a device with neutral corrections, raw orientation `(3/5, 0, 0, 4/5)` and raw
position `(1, 2, 3)`: both reads succeed and yield the raw values. -/
theorem neutral_corrections_transparent_witness :
    (ohmd_device_getf example_omath
        (example_device quatf_identity ⟨3 / 5, 0, 0, 4 / 5⟩ ⟨1, 2, 3⟩)
        OHMD_ROTATION_QUAT fbuf_zero).1 = 0 ∧
    load_quatf (ohmd_device_getf example_omath
        (example_device quatf_identity ⟨3 / 5, 0, 0, 4 / 5⟩ ⟨1, 2, 3⟩)
        OHMD_ROTATION_QUAT fbuf_zero).2 = ⟨3 / 5, 0, 0, 4 / 5⟩ ∧
    (ohmd_device_getf example_omath
        (example_device quatf_identity ⟨3 / 5, 0, 0, 4 / 5⟩ ⟨1, 2, 3⟩)
        OHMD_POSITION_VECTOR fbuf_zero).1 = 0 ∧
    load_vec3f (ohmd_device_getf example_omath
        (example_device quatf_identity ⟨3 / 5, 0, 0, 4 / 5⟩ ⟨1, 2, 3⟩)
        OHMD_POSITION_VECTOR fbuf_zero).2 = ⟨1, 2, 3⟩ := by
  have h := neutral_corrections_transparent example_omath
    (example_device quatf_identity ⟨3 / 5, 0, 0, 4 / 5⟩ ⟨1, 2, 3⟩) fbuf_zero rfl rfl
  rw [h.1, h.2]
  simp [example_device, fixed_pose_getf]

/-- C18 (calibration is atomic on failure): when the device's getter fails with the
non-zero code `r` for `ROTATION_QUAT`, `ohmd_device_setf(ROTATION_QUAT, ...)` returns `r`
and the device afterwards is the device before (both corrections and all properties); the
same for `POSITION_VECTOR`. -/
theorem setf_failure_atomic (d : ohmd_device) (inp : fbuf) (r : Int) (hr : r ≠ 0) :
    ((∀ buf, (d.getf OHMD_ROTATION_QUAT buf).1 = r) →
      ohmd_device_setf d OHMD_ROTATION_QUAT inp = (r, d)) ∧
    ((∀ buf, (d.getf OHMD_POSITION_VECTOR buf).1 = r) →
      ohmd_device_setf d OHMD_POSITION_VECTOR inp = (r, d)) := by
  constructor <;> intro h <;> simp [ohmd_device_setf, h, hr]

/-- C18 on the device whose getter fails with `-1`: both calibration writes return `-1` and
leave the device as it was. -/
theorem setf_failure_atomic_witness :
    ohmd_device_setf failing_device OHMD_ROTATION_QUAT (store_quatf fbuf_zero ⟨1, 0, 0, 0⟩)
      = (-1, failing_device) ∧
    ohmd_device_setf failing_device OHMD_POSITION_VECTOR (store_quatf fbuf_zero ⟨1, 0, 0, 0⟩)
      = (-1, failing_device) :=
  ⟨(setf_failure_atomic failing_device (store_quatf fbuf_zero ⟨1, 0, 0, 0⟩) (-1)
      (by decide)).1 (fun _ => rfl),
   (setf_failure_atomic failing_device (store_quatf fbuf_zero ⟨1, 0, 0, 0⟩) (-1)
      (by decide)).2 (fun _ => rfl)⟩

/-- The return code of `ohmd_device_getf` on the paths that consult the device's getter:
a failure of the getter is returned as it is for `ROTATION_QUAT`, `POSITION_VECTOR` and
every unrecognised type, while both modelview paths return 0 whatever the getter returns. -/
theorem ohmd_device_getf_return_code (lib : omath) (d : ohmd_device) (out : fbuf)
    (code : Int) :
    ((d.getf OHMD_ROTATION_QUAT out).1 ≠ 0 →
      (ohmd_device_getf lib d OHMD_ROTATION_QUAT out).1
        = (d.getf OHMD_ROTATION_QUAT out).1) ∧
    ((d.getf OHMD_POSITION_VECTOR out).1 ≠ 0 →
      (ohmd_device_getf lib d OHMD_POSITION_VECTOR out).1
        = (d.getf OHMD_POSITION_VECTOR out).1) ∧
    ohmd_device_getf lib d (.unrecognised code) out = d.getf (.unrecognised code) out ∧
    (ohmd_device_getf lib d OHMD_LEFT_EYE_GL_MODELVIEW_MATRIX out).1 = 0 ∧
    (ohmd_device_getf lib d OHMD_RIGHT_EYE_GL_MODELVIEW_MATRIX out).1 = 0 := by
  refine ⟨?_, ?_, rfl, rfl, rfl⟩
  · intro h
    simp [ohmd_device_getf, h]
  · intro h
    simp [ohmd_device_getf, h]

/-- C16 (failure pass-through on float reads), evaluated on the device whose getter fails
with `-1` for every type: the read of `ROTATION_QUAT` returns `-1`, but the reads of
`LEFT_EYE_GL_MODELVIEW_MATRIX` and `RIGHT_EYE_GL_MODELVIEW_MATRIX`, which consult the same
getter, return 0. -/
theorem modelview_read_at_failing_input :
    (failing_device.getf OHMD_ROTATION_QUAT fbuf_zero).1 = -1 ∧
    (ohmd_device_getf example_omath failing_device OHMD_ROTATION_QUAT fbuf_zero).1 = -1 ∧
    (ohmd_device_getf example_omath failing_device
        OHMD_LEFT_EYE_GL_MODELVIEW_MATRIX fbuf_zero).1 = 0 ∧
    (ohmd_device_getf example_omath failing_device
        OHMD_RIGHT_EYE_GL_MODELVIEW_MATRIX fbuf_zero).1 = 0 := by
  refine ⟨rfl, ?_, rfl, rfl⟩
  simp [ohmd_device_getf, failing_device, failing_getf]

/-- What the two modelview reads compute when the device's getter leaves the raw
orientation `r` in the local buffer: both return 0; the left eye writes
`transpose(translate(+ipd/2, 0, 0) * look_at(c * r, origin))`, the right eye writes
`transpose(translate(-ipd/2, 0, 0) * look_at(r * c, origin))`. -/
theorem ohmd_device_getf_modelview (lib : omath) (d : ohmd_device) (r : quatf) (out : fbuf)
    (hraw : load_quatf (d.getf OHMD_ROTATION_QUAT fbuf_zero).2 = r) :
    (ohmd_device_getf lib d OHMD_LEFT_EYE_GL_MODELVIEW_MATRIX out).1 = 0 ∧
    load_mat4x4f (ohmd_device_getf lib d OHMD_LEFT_EYE_GL_MODELVIEW_MATRIX out).2
      = omat4x4f_transpose (omat4x4f_mult
          (omat4x4f_init_translate (d.properties.ipd / 2) 0 0)
          (lib.omat4x4f_init_look_at (oquatf_mult_me d.rotation_correction r) ⟨0, 0, 0⟩)) ∧
    (ohmd_device_getf lib d OHMD_RIGHT_EYE_GL_MODELVIEW_MATRIX out).1 = 0 ∧
    load_mat4x4f (ohmd_device_getf lib d OHMD_RIGHT_EYE_GL_MODELVIEW_MATRIX out).2
      = omat4x4f_transpose (omat4x4f_mult
          (omat4x4f_init_translate (-(d.properties.ipd / 2)) 0 0)
          (lib.omat4x4f_init_look_at (oquatf_mult_me r d.rotation_correction) ⟨0, 0, 0⟩)) := by
  refine ⟨rfl, ?_, rfl, ?_⟩
  · simp only [ohmd_device_getf, hraw, load_store_mat4x4f]
  · simp only [ohmd_device_getf, hraw, load_store_mat4x4f]

/-- Multiplying by a translation on the left can be undone: `T(o) * A = T(o) * B` only
when `A = B`. -/
theorem translate_mult_cancel (o : ℚ) (A B : mat4x4f)
    (h : omat4x4f_mult (omat4x4f_init_translate o 0 0) A
      = omat4x4f_mult (omat4x4f_init_translate o 0 0) B) : A = B := by
  have hrow : ∀ i j : Fin 4, i ≠ 0 → A i j = B i j := by
    intro i j hi
    have := congrFun (congrFun h i) j
    rw [translate_mult_entry, translate_mult_entry, if_neg hi, if_neg hi] at this
    exact this
  funext i j
  by_cases hi : i = 0
  · have := congrFun (congrFun h 0) j
    rw [translate_mult_entry, translate_mult_entry, if_pos rfl, if_pos rfl,
      hrow 3 j (by decide)] at this
    rw [hi]
    linarith
  · exact hrow i j hi

/-- The right-eye read writes the matrix that C12 names, built from `c * r`, exactly when
the look-at constructor gives the same matrix for `r * c` and for `c * r`. -/
theorem right_modelview_claim_iff (lib : omath) (d : ohmd_device) (r : quatf) (out : fbuf)
    (hraw : load_quatf (d.getf OHMD_ROTATION_QUAT fbuf_zero).2 = r) :
    load_mat4x4f (ohmd_device_getf lib d OHMD_RIGHT_EYE_GL_MODELVIEW_MATRIX out).2
      = omat4x4f_transpose (omat4x4f_mult
          (omat4x4f_init_translate (-(d.properties.ipd / 2)) 0 0)
          (lib.omat4x4f_init_look_at (oquatf_mult_me d.rotation_correction r) ⟨0, 0, 0⟩))
    ↔ lib.omat4x4f_init_look_at (oquatf_mult_me r d.rotation_correction) ⟨0, 0, 0⟩
      = lib.omat4x4f_init_look_at (oquatf_mult_me d.rotation_correction r) ⟨0, 0, 0⟩ := by
  rw [(ohmd_device_getf_modelview lib d r out hraw).2.2.2]
  constructor
  · intro h
    apply translate_mult_cancel (-(d.properties.ipd / 2))
    funext i j
    have := congrFun (congrFun h j) i
    simpa [omat4x4f_transpose] using this
  · intro h
    rw [h]

/-- C12 (both eyes use `c * r`), evaluated at correction `c = (3/5, 0, 0, 4/5)`, raw
orientation `r = (0, 3/5, 0, 4/5)` and `ipd = 1/16`, with the rotation matrix of the
quaternion as look-at: `c * r = (12/25, 12/25, 9/25, 16/25)` but the right eye uses
`r * c = (12/25, 12/25, -9/25, 16/25)`; the matrix the right-eye read writes has `576/625`
at row 1, column 0, where `transpose(translate(-ipd/2, 0, 0) * look_at(c * r, origin))`
has 0. -/
theorem right_modelview_at_failing_input :
    oquatf_mult_me ⟨3 / 5, 0, 0, 4 / 5⟩ ⟨0, 3 / 5, 0, 4 / 5⟩
      = ⟨12 / 25, 12 / 25, 9 / 25, 16 / 25⟩ ∧
    oquatf_mult_me ⟨0, 3 / 5, 0, 4 / 5⟩ ⟨3 / 5, 0, 0, 4 / 5⟩
      = ⟨12 / 25, 12 / 25, -9 / 25, 16 / 25⟩ ∧
    load_mat4x4f (ohmd_device_getf rotation_omath
        (example_device ⟨3 / 5, 0, 0, 4 / 5⟩ ⟨0, 3 / 5, 0, 4 / 5⟩ ⟨0, 0, 0⟩)
        OHMD_RIGHT_EYE_GL_MODELVIEW_MATRIX fbuf_zero).2 1 0 = 576 / 625 ∧
    omat4x4f_transpose (omat4x4f_mult
        (omat4x4f_init_translate (-(example_properties.ipd / 2)) 0 0)
        (rotation_omath.omat4x4f_init_look_at ⟨12 / 25, 12 / 25, 9 / 25, 16 / 25⟩ ⟨0, 0, 0⟩))
      1 0 = 0 := by
  refine ⟨?_, ?_, ?_, ?_⟩
  · simp [oquatf_mult_me]; norm_num
  · simp [oquatf_mult_me]; norm_num
  · rw [(ohmd_device_getf_modelview rotation_omath _ ⟨0, 3 / 5, 0, 4 / 5⟩ fbuf_zero
      (by simp [example_device, fixed_pose_getf])).2.2.2]
    simp [omat4x4f_transpose, omat4x4f_mult, omat4x4f_init_translate, rotation_omath,
      example_look_at, oquatf_mult_me, example_device]
    norm_num
  · simp [omat4x4f_transpose, omat4x4f_mult, omat4x4f_init_translate, rotation_omath,
      example_look_at]
    norm_num

/-! ## The cached projection matrices and `ohmd_device_setf` -/

/-- The properties of the example coherent device: the example properties with the two
derived matrices. -/
theorem example_coherent_device_properties :
    example_coherent_device.properties
      = { example_properties with
          proj_left := omat4x4f_mult
            (omat4x4f_init_translate
              (4 * (example_properties.hsize / 4 - example_properties.lens_sep / 2)
                / example_properties.hsize) 0 0)
            (example_omath.omat4x4f_init_perspective example_properties.fov
              example_properties.ratio example_properties.znear example_properties.zfar)
          proj_right := omat4x4f_mult
            (omat4x4f_init_translate
              (-(4 * (example_properties.hsize / 4 - example_properties.lens_sep / 2)
                / example_properties.hsize)) 0 0)
            (example_omath.omat4x4f_init_perspective example_properties.fov
              example_properties.ratio example_properties.znear example_properties.zfar) } := by
  have hsize : example_properties.hsize ≠ 0 := by simp [example_properties]
  simp only [example_coherent_device]
  rw [ohmd_calc_default_proj_matrices_some _ _ hsize]
  rfl

/-- The example device is coherent: its cached matrices are the derived ones. -/
theorem example_coherent_device_coherent :
    proj_cache_coherent example_omath example_coherent_device.properties := by
  have hsize : example_properties.hsize ≠ 0 := by simp [example_properties]
  rw [example_coherent_device_properties]
  exact ⟨_, ohmd_calc_default_proj_matrices_some _ _ hsize, rfl, rfl⟩

/-- Whenever the base perspective for the new `znear` differs from the one for the old
`znear` in an entry outside row 0, the cache of a device that was coherent is not coherent
after `ohmd_device_setf(PROJECTION_ZNEAR, ...)`. -/
theorem proj_cache_stale (lib : omath) (d : ohmd_device) (inp : fbuf) (i j : Fin 4)
    (hcoh : proj_cache_coherent lib d.properties) (hi : i ≠ 0)
    (hdiff : lib.omat4x4f_init_perspective d.properties.fov d.properties.ratio (inp 0)
        d.properties.zfar i j
      ≠ lib.omat4x4f_init_perspective d.properties.fov d.properties.ratio
        d.properties.znear d.properties.zfar i j) :
    ¬ proj_cache_coherent lib (ohmd_device_setf d OHMD_PROJECTION_ZNEAR inp).2.properties := by
  rintro ⟨new, hnew, hnl, _⟩
  obtain ⟨old, hold, hol, _⟩ := hcoh
  have hsize : d.properties.hsize ≠ 0 := by
    intro h0
    rw [ohmd_calc_default_proj_matrices_none lib d.properties h0] at hold
    exact Option.noConfusion hold
  rw [ohmd_calc_default_proj_matrices_some lib d.properties hsize] at hold
  have hsize1 : (ohmd_device_setf d OHMD_PROJECTION_ZNEAR inp).2.properties.hsize ≠ 0 := hsize
  rw [ohmd_calc_default_proj_matrices_some lib _ hsize1] at hnew
  have hold1 := congrFun (congrFun (hol.trans (congrArg ohmd_device_properties.proj_left
    (Option.some.inj hold).symm)) i) j
  have hnew1 := congrFun (congrFun (hnl.trans (congrArg ohmd_device_properties.proj_left
    (Option.some.inj hnew).symm)) i) j
  have e : (ohmd_device_setf d OHMD_PROJECTION_ZNEAR inp).2.properties.proj_left i j
      = d.properties.proj_left i j := rfl
  rw [e, hold1] at hnew1
  apply hdiff
  have hl : ∀ (o : ℚ) (P : mat4x4f), omat4x4f_mult (omat4x4f_init_translate o 0 0) P i j
      = P i j := fun o P => by rw [translate_mult_entry, if_neg hi]
  have hnew2 : omat4x4f_mult (omat4x4f_init_translate _ 0 0)
      (lib.omat4x4f_init_perspective d.properties.fov d.properties.ratio
        d.properties.znear d.properties.zfar) i j
      = omat4x4f_mult (omat4x4f_init_translate _ 0 0)
      (lib.omat4x4f_init_perspective d.properties.fov d.properties.ratio
        (inp 0) d.properties.zfar) i j := hnew1
  rw [hl, hl] at hnew2
  exact hnew2.symm

/-- C11 as stated fails: the device's cached matrices are the ones derived from its
properties (`znear = 1/10`); `ohmd_device_setf(PROJECTION_ZNEAR, 1)` succeeds, and afterwards
the cached matrices are not the ones derived from the updated properties. -/
theorem proj_cache_counterexample :
    proj_cache_coherent example_omath example_coherent_device.properties ∧
    (ohmd_device_setf example_coherent_device OHMD_PROJECTION_ZNEAR
        (store_float fbuf_zero 1)).1 = 0 ∧
    ¬ proj_cache_coherent example_omath
        (ohmd_device_setf example_coherent_device OHMD_PROJECTION_ZNEAR
          (store_float fbuf_zero 1)).2.properties := by
  refine ⟨example_coherent_device_coherent, rfl, ?_⟩
  refine proj_cache_stale example_omath example_coherent_device (store_float fbuf_zero 1) 2 2
    example_coherent_device_coherent (by decide) ?_
  simp [example_coherent_device_properties, example_omath, example_properties, store_float]

/-- C11, amended: for a device whose cached `proj_left`/`proj_right` are the ones derived
from its properties, `ohmd_device_setf` of `PROJECTION_ZNEAR` (of `PROJECTION_ZFAR`) returns
0, stores the input value in `znear` (in `zfar`) and changes nothing else of the device; the
cache is not recomputed: after either call the cached matrices are still the ones derived
from the properties before the call, and `ohmd_device_getf` of
`LEFT/RIGHT_EYE_GL_PROJECTION_MATRIX` returns 0 and writes their transposes. -/
theorem proj_cache_after_setf (lib : omath) (d : ohmd_device) (inp out : fbuf)
    (hcoh : proj_cache_coherent lib d.properties) :
    ohmd_device_setf d OHMD_PROJECTION_ZNEAR inp
      = (0, { d with properties := { d.properties with znear := inp 0 } }) ∧
    ohmd_device_setf d OHMD_PROJECTION_ZFAR inp
      = (0, { d with properties := { d.properties with zfar := inp 0 } }) ∧
    ∃ derived, ohmd_calc_default_proj_matrices lib d.properties = some derived ∧
      ∀ type : ohmd_float_value,
        type = OHMD_PROJECTION_ZNEAR ∨ type = OHMD_PROJECTION_ZFAR →
        (ohmd_device_setf d type inp).2.properties.proj_left = derived.proj_left ∧
        (ohmd_device_setf d type inp).2.properties.proj_right = derived.proj_right ∧
        ohmd_device_getf lib (ohmd_device_setf d type inp).2
            OHMD_LEFT_EYE_GL_PROJECTION_MATRIX out
          = (0, store_mat4x4f out (omat4x4f_transpose derived.proj_left)) ∧
        ohmd_device_getf lib (ohmd_device_setf d type inp).2
            OHMD_RIGHT_EYE_GL_PROJECTION_MATRIX out
          = (0, store_mat4x4f out (omat4x4f_transpose derived.proj_right)) := by
  obtain ⟨derived, hder, hl, hr⟩ := hcoh
  refine ⟨rfl, rfl, derived, hder, ?_⟩
  intro type htype
  rcases htype with h | h <;> subst h <;> refine ⟨hl, hr, ?_, ?_⟩ <;>
    simp only [ohmd_device_setf, ohmd_device_getf]
  · rw [← hl]
  · rw [← hr]
  · rw [← hl]
  · rw [← hr]

/-- The amended C11 on the example device: `ohmd_device_setf(PROJECTION_ZNEAR, 1)` makes
`znear = 1` and leaves `zfar = 1000`; the entry at row 2, column 2 of the cached left matrix
is still `1/10 - 1000`, the value derived from the old `znear = 1/10`, while the derivation
from the updated properties gives `1 - 1000`. -/
theorem proj_cache_after_setf_witness :
    (ohmd_device_setf example_coherent_device OHMD_PROJECTION_ZNEAR
        (store_float fbuf_zero 1)).2.properties.znear = 1 ∧
    (ohmd_device_setf example_coherent_device OHMD_PROJECTION_ZNEAR
        (store_float fbuf_zero 1)).2.properties.zfar = 1000 ∧
    (ohmd_device_setf example_coherent_device OHMD_PROJECTION_ZNEAR
        (store_float fbuf_zero 1)).2.properties.proj_left 2 2 = 1 / 10 - 1000 ∧
    (ohmd_calc_default_proj_matrices example_omath
        (ohmd_device_setf example_coherent_device OHMD_PROJECTION_ZNEAR
          (store_float fbuf_zero 1)).2.properties).map (fun p => p.proj_left 2 2)
      = some (1 - 1000) := by
  have h := proj_cache_after_setf example_omath example_coherent_device
    (store_float fbuf_zero 1) fbuf_zero example_coherent_device_coherent
  obtain ⟨hnear, _, derived, hder, hall⟩ := h
  have hleft := (hall OHMD_PROJECTION_ZNEAR (Or.inl rfl)).1
  have hp : example_coherent_device.properties.hsize ≠ 0 := by
    simp [example_coherent_device_properties, example_properties]
  have hd : derived.proj_left 2 2 = 1 / 10 - 1000 := by
    rw [ohmd_calc_default_proj_matrices_some _ _ hp] at hder
    rw [← Option.some.inj hder]
    simp [example_coherent_device_properties, example_omath, example_properties,
      omat4x4f_mult, omat4x4f_init_translate]
  refine ⟨?_, ?_, ?_, ?_⟩
  · rw [hnear]
    simp [store_float]
  · rw [hnear]
    simp [example_coherent_device_properties, example_properties]
  · rw [hleft, hd]
  · rw [hnear]
    have hq : ({ example_coherent_device.properties with
        znear := store_float fbuf_zero 1 0 } : ohmd_device_properties).hsize ≠ 0 := hp
    simp only [ohmd_calc_default_proj_matrices_some _ _ hq, Option.map_some']
    simp [example_coherent_device_properties, example_omath, example_properties,
      omat4x4f_mult, omat4x4f_init_translate, store_float]

/-! ## Probing: `ohmd_ctx_probe` -/

/-- The probe loop looks at the drivers only. -/
theorem probe_loop_congr (w1 w2 : world) (hd : w1.ctx.drivers = w2.ctx.drivers)
    (hm : w1.drivers = w2.drivers) :
    ∀ (n i : Nat) (list : ohmd_device_list),
      probe_loop w1 n i list = probe_loop w2 n i list := by
  intro n
  induction n with
  | zero =>
    intro i list
    rfl
  | succ n ih =>
    intro i list
    simp only [probe_loop, hd, hm]
    cases (w2.ctx.drivers i).bind w2.drivers with
    | none => rfl
    | some driver => exact ih (i + 1) _

/-- The probe loop completes when the driver slots it visits hold drivers. -/
theorem probe_loop_some (w : world) :
    ∀ (n i : Nat) (list : ohmd_device_list),
      (∀ k, i ≤ k → k < i + n → ∃ driver, (w.ctx.drivers k).bind w.drivers = some driver) →
      ∃ l, probe_loop w n i list = some l := by
  intro n
  induction n with
  | zero =>
    intro i list _
    exact ⟨list, rfl⟩
  | succ n ih =>
    intro i list h
    obtain ⟨driver, hdrv⟩ := h i (le_refl _) (by omega)
    simp only [probe_loop, hdrv]
    exact ih (i + 1) _ (fun k h1 h2 => h k (by omega) (by omega))

/-- Appending adds the number of appended descriptors to the count. -/
theorem list_append_num (ds : List ohmd_device_desc) :
    ∀ list : ohmd_device_list,
      (list_append list ds).num_devices = list.num_devices + ds.length := by
  induction ds with
  | nil =>
    intro list
    simp [list_append]
  | cons d ds ih =>
    intro list
    simp only [list_append, ih, List.length_cons]
    push_cast
    ring

/-- The snapshot after appending is the snapshot before, followed by the appended
descriptors. -/
theorem snapshot_list_append (ds : List ohmd_device_desc) :
    ∀ list : ohmd_device_list, 0 ≤ list.num_devices →
      snapshot (list_append list ds) = snapshot list ++ ds := by
  induction ds with
  | nil =>
    intro list _
    simp [list_append]
  | cons d ds ih =>
    intro list h0
    simp only [list_append]
    rw [ih _ (by show 0 ≤ list.num_devices + 1; omega)]
    obtain ⟨m, hm⟩ := Int.eq_ofNat_of_zero_le h0
    have h1 : (list.num_devices + 1).toNat = m + 1 := by omega
    have h2 : list.num_devices.toNat = m := by omega
    simp only [snapshot, h1, h2]
    rw [List.range_succ, List.map_append]
    simp only [List.map_cons, List.map_nil, Function.update_same, List.append_assoc,
      List.singleton_append]
    congr 1
    apply List.map_congr_left
    intro a ha
    have : a ≠ m := by
      have := List.mem_range.mp ha
      omega
    simp [Function.update, this]

/-- Appending two runs of descriptors one after the other appends their concatenation. -/
theorem list_append_append (a b : List ohmd_device_desc) :
    ∀ list : ohmd_device_list,
      list_append list (a ++ b) = list_append (list_append list a) b := by
  induction a with
  | nil =>
    intro list
    rfl
  | cons d ds ih =>
    intro list
    exact ih _

/-- The probe loop over drivers that append: the list afterwards is the list before with the
drivers' devices appended in slot order. -/
theorem probe_loop_appends (w : world) (own : Nat → List ohmd_device_desc) :
    ∀ (n i : Nat) (list : ohmd_device_list),
      (∀ k, i ≤ k → k < i + n → ∃ driver, (w.ctx.drivers k).bind w.drivers = some driver ∧
        ∀ l, driver.get_device_list l = list_append l (own k)) →
      probe_loop w n i list
        = some (list_append list (((List.range n).map (fun k => own (i + k))).flatten)) := by
  intro n
  induction n with
  | zero =>
    intro i list _
    simp [probe_loop, list_append]
  | succ n ih =>
    intro i list h
    obtain ⟨driver, hdrv, happ⟩ := h i (le_refl _) (by omega)
    simp only [probe_loop, hdrv]
    rw [ih (i + 1) _ (fun k h1 h2 => h k (by omega) (by omega)), happ]
    rw [← list_append_append]
    congr 2
    rw [List.range_succ_eq_map, List.map_cons, List.flatten_cons, List.map_map]
    simp only [Nat.add_zero]
    congr 2
    apply List.map_congr_left
    intro a _
    simp only [Function.comp]
    congr 1
    omega

/-- C13 (snapshot replacement): for two contexts with the same drivers (the same driver
slots, driver count and driver objects, every slot below the count holding a driver) and
arbitrary previous device lists, `ohmd_ctx_probe` returns the same value and leaves the
same device list in both, and the return value is the new list's device count; when every
driver appends, the new snapshot is the concatenation, in slot order, of what each driver
appends to an initially empty list, and the return value is its length. -/
theorem probe_replaces_snapshot (w1 w2 : world)
    (hd : w1.ctx.drivers = w2.ctx.drivers) (hn : w1.ctx.num_drivers = w2.ctx.num_drivers)
    (hm : w1.drivers = w2.drivers)
    (hvalid : ∀ k : Nat, (k : Int) < w1.ctx.num_drivers →
      ∃ driver, (w1.ctx.drivers k).bind w1.drivers = some driver) :
    ∃ (ret : Int) (v1 v2 : world),
      ohmd_ctx_probe w1 = some (ret, v1) ∧ ohmd_ctx_probe w2 = some (ret, v2) ∧
      v1.ctx.list = v2.ctx.list ∧
      ret = v1.ctx.list.num_devices ∧
      ((∀ (k : Nat) (driver : ohmd_driver), (k : Int) < w1.ctx.num_drivers →
          (w1.ctx.drivers k).bind w1.drivers = some driver → driver_appends driver) →
        snapshot v1.ctx.list
          = ((List.range w1.ctx.num_drivers.toNat).map (driver_contribution w1)).flatten ∧
        ret = (snapshot v1.ctx.list).length) := by
  have hcongr := probe_loop_congr w1 w2 hd hm w1.ctx.num_drivers.toNat 0 ohmd_device_list_zero
  obtain ⟨l, hl⟩ := probe_loop_some w1 w1.ctx.num_drivers.toNat 0 ohmd_device_list_zero
    (fun k _ hk => hvalid k (by omega))
  have hl2 : probe_loop w2 w2.ctx.num_drivers.toNat 0 ohmd_device_list_zero = some l := by
    rw [← hn, ← hcongr]
    exact hl
  have e1 : ohmd_ctx_probe w1
      = some (l.num_devices, { w1 with ctx := { w1.ctx with list := l } }) := by
    simp only [ohmd_ctx_probe, hl]
  have e2 : ohmd_ctx_probe w2
      = some (l.num_devices, { w2 with ctx := { w2.ctx with list := l } }) := by
    simp only [ohmd_ctx_probe, hl2]
  refine ⟨_, _, _, e1, e2, rfl, rfl, fun happ => ?_⟩
  have hloop := probe_loop_appends w1 (driver_contribution w1) w1.ctx.num_drivers.toNat 0
    ohmd_device_list_zero (by
      intro k _ hk
      obtain ⟨driver, hdr⟩ := hvalid k (by omega)
      refine ⟨driver, hdr, fun l0 => ?_⟩
      rw [happ k driver (by omega) hdr l0]
      simp only [driver_contribution, hdr])
  simp only [Nat.zero_add] at hloop
  generalize ((List.range w1.ctx.num_drivers.toNat).map
    (fun k => driver_contribution w1 k)).flatten = L at hloop
  rw [hl] at hloop
  have hlL : l = list_append ohmd_device_list_zero L := Option.some.inj hloop
  have hsnap := snapshot_list_append L ohmd_device_list_zero (le_refl _)
  have hnum := list_append_num L ohmd_device_list_zero
  have hs : snapshot l = L := by
    rw [hlL, hsnap]
    simp [snapshot, ohmd_device_list_zero]
  constructor
  · show snapshot l = _
    rw [hs]
  · show l.num_devices = (snapshot l).length
    rw [hs, hlL, hnum]
    simp [ohmd_device_list_zero]

/-- The vendor driver appends its one device. -/
theorem vendor_driver_appends : driver_appends vendor_driver := by
  intro list
  simp [vendor_driver, snapshot, ohmd_device_list_zero, list_append, List.range_succ]

/-- The example driver appends its one device. -/
theorem example_driver_appends (obj : ohmd_device) : driver_appends (example_driver obj) := by
  intro list
  simp [example_driver, snapshot, ohmd_device_list_zero, list_append, List.range_succ]

/-- C13 on the context with the vendor driver first and the example driver last, once with
an empty previous list and once with a previous list of three devices: both probes return 2
and leave the snapshot `[vendor device, example device]`. -/
theorem probe_replaces_snapshot_witness :
    (ohmd_ctx_probe (example_world_two_drivers ohmd_device_list_zero)).map
        (fun r => (r.1, snapshot r.2.ctx.list)) = some (2, [vendor_desc, example_desc]) ∧
    (ohmd_ctx_probe (example_world_two_drivers stale_list)).map
        (fun r => (r.1, snapshot r.2.ctx.list)) = some (2, [vendor_desc, example_desc]) := by
  have hk2 : ∀ k : Nat,
      (k : Int) < (example_world_two_drivers ohmd_device_list_zero).ctx.num_drivers →
      k = 0 ∨ k = 1 := by
    intro k hk
    simp only [example_world_two_drivers] at hk
    omega
  obtain ⟨ret, v1, v2, h1, h2, hl, _, happ⟩ :=
    probe_replaces_snapshot (example_world_two_drivers ohmd_device_list_zero)
      (example_world_two_drivers stale_list) rfl rfl rfl
      (by
        intro k hk
        rcases hk2 k hk with h | h <;> subst h
        · exact ⟨vendor_driver, rfl⟩
        · exact ⟨example_driver example_new_device, rfl⟩)
  obtain ⟨hs, hlen⟩ := happ (by
    intro k driver hk hdrv
    rcases hk2 k hk with h | h <;> subst h
    · have : driver = vendor_driver := (Option.some.inj hdrv).symm
      rw [this]
      exact vendor_driver_appends
    · have : driver = example_driver example_new_device := (Option.some.inj hdrv).symm
      rw [this]
      exact example_driver_appends _)
  have hc : ((List.range
      (example_world_two_drivers ohmd_device_list_zero).ctx.num_drivers.toNat).map
      (driver_contribution (example_world_two_drivers ohmd_device_list_zero))).flatten
      = [vendor_desc, example_desc] := by
    simp [example_world_two_drivers, driver_contribution, List.range_succ, vendor_driver,
      example_driver, snapshot, ohmd_device_list_zero]
  rw [hc] at hs
  rw [h1, h2, Option.map_some', Option.map_some', ← hl, hs, hlen, hs]
  simp

/-! ## String fields: `ohmd_list_gets` with an index in range -/

/-- C14 (string fields): for an index with `0 <= index < count`, `ohmd_list_gets` returns
`thread_str` holding the vendor, product or path of the descriptor at that index, for
`VENDOR`, `PRODUCT`, `PATH` and a field shorter than `OHMD_STR_SIZE`; the memory afterwards
differs from the memory before in `thread_str` only, so the snapshot is unchanged; for every
other field value the call returns `NULL` and changes nothing. -/
theorem list_gets_in_range (n : Nat) (w : world) (index : Int) (code : Int)
    (hlo : 0 ≤ index) (hhi : index < w.ctx.list.num_devices) :
    ((w.ctx.list.devices index.toNat).vendor.length < n →
      ohmd_list_gets n w index OHMD_VENDOR
        = some (some (w.ctx.list.devices index.toNat).vendor,
            { w with thread_str := (w.ctx.list.devices index.toNat).vendor })) ∧
    ((w.ctx.list.devices index.toNat).product.length < n →
      ohmd_list_gets n w index OHMD_PRODUCT
        = some (some (w.ctx.list.devices index.toNat).product,
            { w with thread_str := (w.ctx.list.devices index.toNat).product })) ∧
    ((w.ctx.list.devices index.toNat).path.length < n →
      ohmd_list_gets n w index OHMD_PATH
        = some (some (w.ctx.list.devices index.toNat).path,
            { w with thread_str := (w.ctx.list.devices index.toNat).path })) ∧
    ohmd_list_gets n w index (.unrecognised code) = some (none, w) := by
  have h1 : ¬ index ≥ w.ctx.list.num_devices := by omega
  have h2 : ¬ index < 0 := by omega
  have ht : ∀ field : List Char, field.length < n → strncpy field n = field := by
    intro field hlen
    simp only [strncpy]
    exact List.take_of_length_le (by omega)
  refine ⟨?_, ?_, ?_, by simp [ohmd_list_gets, h1]⟩ <;> intro hlen <;>
    simp only [ohmd_list_gets, h1, h2, if_false, ht _ hlen]

/-- C14 on the example context with `OHMD_STR_SIZE = 256`: the vendor of device 0 is read as
`OpenHMD`, and the snapshot still holds one device. -/
theorem list_gets_in_range_witness :
    (ohmd_list_gets 256 (example_world failing_driver) 0 OHMD_VENDOR).map
        (fun r => (r.1, r.2.ctx.list.num_devices))
      = some (some "OpenHMD".toList, 1) := by
  rw [(list_gets_in_range 256 (example_world failing_driver) 0 0 (by decide)
    (by simp [example_world])).1 (by decide)]
  rfl

/-! ## Integer properties: `ohmd_device_geti` -/

/-- C15 (integer properties): for a device of the context, `ohmd_device_geti` returns 0 and
writes `properties.hres` for `SCREEN_HORIZONTAL_RESOLUTION` and `properties.vres` for
`SCREEN_VERTICAL_RESOLUTION`, changing nothing else; for every other type it returns `-1`,
leaves the integer behind `out` and every device as they were, and records the non-empty
message `no such integer value type: <type>`; on each of the three paths the mutex calls
are one lock followed by one unlock of the context's mutex. -/
theorem geti_spec (w : world) (device : Nat) (obj : ohmd_device) (out code : Int)
    (hdev : w.devices device = some obj) (hctx : obj.ctx = some w.ctx_addr) :
    ohmd_device_geti w device .OHMD_SCREEN_HORIZONTAL_RESOLUTION out
      = some { ret := 0, out := obj.properties.hres,
               mutex_calls := [.lock w.ctx_addr, .unlock w.ctx_addr], w := w } ∧
    ohmd_device_geti w device .OHMD_SCREEN_VERTICAL_RESOLUTION out
      = some { ret := 0, out := obj.properties.vres,
               mutex_calls := [.lock w.ctx_addr, .unlock w.ctx_addr], w := w } ∧
    ohmd_device_geti w device (.unrecognised code) out
      = some { ret := -1, out := out,
               mutex_calls := [.lock w.ctx_addr, .unlock w.ctx_addr],
               w := { w with
                 ohmd_error_msg := "no such integer value type: " ++ toString code } } ∧
    "no such integer value type: " ++ toString code ≠ "" := by
  refine ⟨?_, ?_, ?_, ?_⟩
  · simp [ohmd_device_geti, hdev, hctx]
  · simp [ohmd_device_geti, hdev, hctx]
  · simp [ohmd_device_geti, hdev, hctx]
  · intro h
    have hlen := congrArg String.length h
    simp [String.length_append] at hlen
    exact absurd hlen.1 (by decide)

/-- C15 on device 100 of the example context with two open devices: the horizontal
resolution is read as 1280 with one lock and one unlock, and the unrecognised type 99 gives
`-1`, the output as it was (7), and the same two mutex calls. -/
theorem geti_spec_witness :
    (ohmd_device_geti example_world_two_open 100 .OHMD_SCREEN_HORIZONTAL_RESOLUTION 7).map
        (fun r => (r.ret, r.out, r.mutex_calls))
      = some (0, 1280, [.lock 1, .unlock 1]) ∧
    (ohmd_device_geti example_world_two_open 100 (.unrecognised 99) 7).map
        (fun r => (r.ret, r.out, r.mutex_calls, r.w.ohmd_error_msg))
      = some (-1, 7, [.lock 1, .unlock 1], "no such integer value type: 99") := by
  have h := geti_spec example_world_two_open 100 _ 7 99 rfl rfl
  rw [h.1, h.2.2.1]
  exact ⟨rfl, by decide⟩

/-! ## Open, close, reopen -/

/-- C17 (open/close/reopen): in a context with an empty active sequence whose snapshot has
at least one device, and whose driver's open succeeds at index 0 (the first time, and again
once the first device has been released): `ohmd_list_open_device(ctx, 0)` returns a device
with `active_device_idx = 0`, the active count is 1; `ohmd_close_device` on it returns 0 and
makes the active sequence empty; a second `ohmd_list_open_device(ctx, 0)` again returns a
device with `active_device_idx = 0`, and the active count is 1. -/
theorem open_close_reopen (w : world) (driver : ohmd_driver) (p1 p2 : Nat)
    (obj1 obj2 : ohmd_device)
    (hempty : w.ctx.num_active_devices = 0)
    (hlist : 1 ≤ w.ctx.list.num_devices)
    (hdrv : (w.ctx.list.devices 0).driver_ptr.bind w.drivers = some driver)
    (hopen1 : driver.open_device (w.ctx.list.devices 0) w.devices = some (p1, obj1))
    (hopen2 : driver.open_device (w.ctx.list.devices 0) (Function.update w.devices p1 none)
      = some (p2, obj2)) :
    ∃ w1 w2 w3,
      ohmd_list_open_device w 0 = some (some p1, w1) ∧
      (w1.devices p1).map ohmd_device.active_device_idx = some 0 ∧
      w1.ctx.num_active_devices = 1 ∧
      active_sequence w1 = [some p1] ∧
      ohmd_close_device w1 p1 = some (0, w2) ∧
      w2.ctx.num_active_devices = 0 ∧
      active_sequence w2 = [] ∧
      ohmd_list_open_device w2 0 = some (some p2, w3) ∧
      (w3.devices p2).map ohmd_device.active_device_idx = some 0 ∧
      w3.ctx.num_active_devices = 1 := by
  have hlen := w.ctx.active_devices_len_pos
  have h1 := ohmd_list_open_device_eq w 0 driver p1 obj1 (le_refl _) (by omega) hdrv hopen1
    (by omega) (by omega)
  rw [hempty] at h1
  have h2 : ohmd_close_device
      { w with
        devices := Function.update w.devices p1 (some
          { obj1 with
            rotation_correction := ⟨obj1.rotation_correction.x, obj1.rotation_correction.y,
              obj1.rotation_correction.z, 1⟩
            ctx := some w.ctx_addr
            active_device_idx := 0 })
        ctx := { w.ctx with
          active_devices := Function.update w.ctx.active_devices (0 : Int).toNat (some p1)
          num_active_devices := 0 + 1 } } p1
      = some (0,
        { w with
          devices := Function.update w.devices p1 none
          ctx := { w.ctx with
            active_devices := Function.update w.ctx.active_devices (0 : Int).toNat (some p1)
            num_active_devices := 0 } }) := by
    simp [ohmd_close_device, memmove_slots, reindex_loop]
  have h3 := ohmd_list_open_device_eq
      { w with
        devices := Function.update w.devices p1 none
        ctx := { w.ctx with
          active_devices := Function.update w.ctx.active_devices (0 : Int).toNat (some p1)
          num_active_devices := 0 } } 0 driver p2 obj2 (le_refl _)
      (by show (0 : Int) < w.ctx.list.num_devices; omega) hdrv hopen2 (le_refl _)
      (by show (0 : Int) < (w.ctx.active_devices_len : Int); omega)
  refine ⟨_, _, _, h1, ?_, ?_, ?_, h2, rfl, ?_, h3, ?_, ?_⟩
  · simp
  · simp
  · simp [active_sequence, List.range_succ]
  · simp [active_sequence]
  · simp
  · simp

/-- C17 on the context with only the example driver: the probe returns 1; opening index 0
gives the device at address 100 at position 0; closing it leaves no active device; opening
index 0 again gives a device (again at address 100) at position 0. -/
theorem open_close_reopen_witness :
    (ohmd_ctx_probe (example_world (example_driver example_new_device))).map Prod.fst
      = some 1 ∧
    (∃ w1 w2 w3,
      ohmd_list_open_device (example_world (example_driver example_new_device)) 0
        = some (some 100, w1) ∧
      (w1.devices 100).map ohmd_device.active_device_idx = some 0 ∧
      w1.ctx.num_active_devices = 1 ∧
      active_sequence w1 = [some 100] ∧
      ohmd_close_device w1 100 = some (0, w2) ∧
      w2.ctx.num_active_devices = 0 ∧
      active_sequence w2 = [] ∧
      ohmd_list_open_device w2 0 = some (some 100, w3) ∧
      (w3.devices 100).map ohmd_device.active_device_idx = some 0 ∧
      w3.ctx.num_active_devices = 1) :=
  ⟨by simp [ohmd_ctx_probe, probe_loop, example_world, example_driver, ohmd_device_list_zero],
   open_close_reopen (example_world (example_driver example_new_device))
    (example_driver example_new_device) 100 100 example_new_device example_new_device
    rfl (by simp [example_world]) rfl rfl
    (by simp [example_world, example_driver, Function.update])⟩

/-! ## The capacity of the active array -/

/-- C19 as stated fails, at `N = 256`: the context has an active array of 256 slots and
holds 256 open devices (and satisfies the index invariant), index 0 is in range and the
driver's open returns a device (address 100). `ohmd_list_open_device(ctx, 0)` consults no
capacity and performs the store at slot 256, past the end of the array: the call is an
invalid access, so it does not complete with a number of active devices within the
capacity. -/
theorem open_device_capacity_counterexample :
    index_invariant example_world_full ∧
    example_world_full.ctx.active_devices_len = 256 ∧
    example_world_full.ctx.num_active_devices = 256 ∧
    (0 : Int) < example_world_full.ctx.list.num_devices ∧
    ((example_world_full.ctx.list.devices 0).driver_ptr.bind example_world_full.drivers).bind
        (fun driver => driver.open_device (example_world_full.ctx.list.devices 0)
          example_world_full.devices)
      = some (100, example_new_device) ∧
    ohmd_list_open_device example_world_full 0 = none ∧
    ¬ ∃ r, ohmd_list_open_device example_world_full 0 = some r ∧
      r.2.ctx.num_active_devices ≤ r.2.ctx.active_devices_len := by
  have hnone : ohmd_list_open_device example_world_full 0 = none := by
    simp [ohmd_list_open_device, example_world_full, example_desc, example_driver]
  refine ⟨example_world_full_invariant, rfl, rfl, by decide, ?_, hnone, ?_⟩
  · simp [example_world_full, example_desc, example_driver]
  · rintro ⟨r, h, _⟩
    rw [hnone] at h
    exact Option.noConfusion h

/-- C19, amended: in a context whose active array has `N = active_devices_len` slots, for an
index in range whose driver returns a device: when the context holds fewer than `N` devices,
`ohmd_list_open_device` returns the device, stores it at the slot given by the previous
count, which is below `N`, changes no other slot (so no slot `>= N`), and the number of
active devices afterwards is the previous count plus one, at most `N`; when the context
already holds `N` devices (or more), the store is past the end of the array and the call is
an invalid access. -/
theorem open_device_within_capacity (w : world) (index : Int) (driver : ohmd_driver)
    (p : Nat) (obj : ohmd_device)
    (hlo : index ≥ 0) (hhi : index < w.ctx.list.num_devices)
    (hdrv : (w.ctx.list.devices index.toNat).driver_ptr.bind w.drivers = some driver)
    (hopen : driver.open_device (w.ctx.list.devices index.toNat) w.devices = some (p, obj))
    (hnum : 0 ≤ w.ctx.num_active_devices) :
    (w.ctx.num_active_devices < w.ctx.active_devices_len →
      ∃ w1, ohmd_list_open_device w index = some (some p, w1) ∧
        w1.ctx.active_devices w.ctx.num_active_devices.toNat = some p ∧
        w.ctx.num_active_devices.toNat < w.ctx.active_devices_len ∧
        (∀ k : Nat, k ≠ w.ctx.num_active_devices.toNat →
          w1.ctx.active_devices k = w.ctx.active_devices k) ∧
        w1.ctx.active_devices_len = w.ctx.active_devices_len ∧
        w1.ctx.num_active_devices = w.ctx.num_active_devices + 1 ∧
        w1.ctx.num_active_devices ≤ w1.ctx.active_devices_len) ∧
    (w.ctx.num_active_devices ≥ w.ctx.active_devices_len →
      ohmd_list_open_device w index = none) := by
  refine ⟨fun hcap => ?_, ohmd_list_open_device_full w index driver p obj hlo hhi hdrv hopen⟩
  have heq := ohmd_list_open_device_eq w index driver p obj hlo hhi hdrv hopen hnum hcap
  refine ⟨_, heq, ?_, by omega, ?_, rfl, rfl, ?_⟩
  · simp
  · intro k hk
    simp [Function.update, hk]
  · show w.ctx.num_active_devices + 1 ≤ (w.ctx.active_devices_len : Int)
    omega

/-- The amended C19 on the example contexts with an active array of 256 slots: with no open
device, opening index 0 stores the device at slot 0 and the active count becomes 1; with 256
open devices the same call is an invalid access. -/
theorem open_device_within_capacity_witness :
    (ohmd_list_open_device (example_world (example_driver example_new_device)) 0).map
        (fun r => (r.1, r.2.ctx.active_devices 0, r.2.ctx.num_active_devices))
      = some (some 100, some 100, 1) ∧
    ohmd_list_open_device example_world_full 0 = none := by
  have hfree :=
    open_device_within_capacity (example_world (example_driver example_new_device)) 0
      (example_driver example_new_device) 100 example_new_device
      (by decide) (by simp [example_world]) rfl rfl (by simp [example_world])
  have hfull :=
    open_device_within_capacity example_world_full 0
      (example_driver example_new_device) 100 example_new_device
      (by decide) (by simp [example_world_full])
      (by simp [example_world_full, example_desc])
      (by simp [example_world_full, example_desc, example_driver])
      (by simp [example_world_full])
  obtain ⟨w1, h, hslot, _, _, _, hnum, _⟩ := hfree.1 (by simp [example_world])
  refine ⟨?_, hfull.2 (by simp [example_world_full])⟩
  rw [h, Option.map_some']
  have hslot0 : w1.ctx.active_devices 0 = some 100 := hslot
  rw [hslot0, hnum]
  rfl

end OpenHMD
